import Mathlib

/-!
CIEDE2000 colour difference: a verification development.

Shallow embedding of `c_module/ciede2000.c` and `c_module/ciede2000.h`.

* `double` is idealised as `ℝ`; `sqrt`, `sin`, `cos`, `exp` are the real functions,
  `pow(x, 7)` and `pow(x, 2.0)` are the natural-number powers `x ^ 7` and `x ^ 2`,
  and `atan2 y x` is the argument of the complex number `x + y i` (range `(-π, π]`,
  value `0` at the origin, as in C without signed zeros).
* The macro `PI` (the decimal expansion of π to `double` precision) is idealised as `π`,
  so that, as in the C program, `atan2(0, -1)` and `PI` coincide.
* `DBL_MAX` is the largest finite `double`, `(2 - 2^(-52)) * 2^1023`.
* Two effects of `double` arithmetic that exact real arithmetic loses are kept where a claim
  depends on them. Overflow: a distance that is not below `DBL_MAX` is not a finite `double`,
  the program holds `+∞` (`asDouble`); the minimum found by `deltaE_min` is stated on these
  values. Underflow: `CIEDE2000Fl` is `CIEDE2000` with every result passed through a rounding
  function, for which only the underflow to `0` is used.
* Arrays passed by pointer are functions `ℕ → ℝ`; the output array of `deltaE_matrix`
  is assumed not to overlap its inputs.
* A `for (int row = 0; row < n; row++)` loop is a left fold over `List.range n.toNat`
  (no iteration when `n ≤ 0`); index arithmetic is not subject to `int` overflow.
-/

namespace CIEDE

/-- Type `LAB` of `ciede2000.h`. -/
structure LAB where
  l : ℝ
  a : ℝ
  b : ℝ

noncomputable section

/-- Macro `PI` of `ciede2000.h`. -/
def PI : ℝ := Real.pi

/-- Constant `DBL_MAX` of `<float.h>` (IEEE 754 binary64). -/
def DBL_MAX : ℝ := 2 ^ 1024 - 2 ^ 971

/-- Function `atan2` of `<math.h>`: the angle of the point `(x, y)`. -/
def atan2 (y x : ℝ) : ℝ := Complex.arg ⟨x, y⟩

def deg2Rad (deg : ℝ) : ℝ := deg * (PI / 180)

def rad2Deg (rad : ℝ) : ℝ := (180 / PI) * rad

/-! ## `CIEDE2000`: one definition per local variable, in source order -/

def k_L : ℝ := 1
def k_C : ℝ := 1
def k_H : ℝ := 1
def deg360InRad : ℝ := deg2Rad 360
def deg180InRad : ℝ := deg2Rad 180
def pow25To7 : ℝ := 6103515625

def C1 (lab1 : LAB) : ℝ := Real.sqrt ((lab1.a * lab1.a) + (lab1.b * lab1.b))
def C2 (lab2 : LAB) : ℝ := Real.sqrt ((lab2.a * lab2.a) + (lab2.b * lab2.b))
def barC (lab1 lab2 : LAB) : ℝ := (C1 lab1 + C2 lab2) / 2
def G (lab1 lab2 : LAB) : ℝ :=
  0.5 * (1 - Real.sqrt (barC lab1 lab2 ^ 7 / (barC lab1 lab2 ^ 7 + pow25To7)))
def a1Prime (lab1 lab2 : LAB) : ℝ := (1 + G lab1 lab2) * lab1.a
def a2Prime (lab1 lab2 : LAB) : ℝ := (1 + G lab1 lab2) * lab2.a
def CPrime1 (lab1 lab2 : LAB) : ℝ :=
  Real.sqrt ((a1Prime lab1 lab2 * a1Prime lab1 lab2) + (lab1.b * lab1.b))
def CPrime2 (lab1 lab2 : LAB) : ℝ :=
  Real.sqrt ((a2Prime lab1 lab2 * a2Prime lab1 lab2) + (lab2.b * lab2.b))

/-- The hue-angle block (Equation 7), which the source writes out once for each colour. -/
def hPrime (b aPrime : ℝ) : ℝ :=
  if b = 0 ∧ aPrime = 0 then 0
  else
    let h := atan2 b aPrime
    if h < 0 then h + deg360InRad else h

def hPrime1 (lab1 lab2 : LAB) : ℝ := hPrime lab1.b (a1Prime lab1 lab2)
def hPrime2 (lab1 lab2 : LAB) : ℝ := hPrime lab2.b (a2Prime lab1 lab2)

def deltaLPrime (lab1 lab2 : LAB) : ℝ := lab2.l - lab1.l
def deltaCPrime (lab1 lab2 : LAB) : ℝ := CPrime2 lab1 lab2 - CPrime1 lab1 lab2
def CPrimeProduct (lab1 lab2 : LAB) : ℝ := CPrime1 lab1 lab2 * CPrime2 lab1 lab2

def deltahPrime (lab1 lab2 : LAB) : ℝ :=
  if CPrimeProduct lab1 lab2 = 0 then 0
  else
    let d := hPrime2 lab1 lab2 - hPrime1 lab1 lab2
    if d < -deg180InRad then d + deg360InRad
    else if d > deg180InRad then d - deg360InRad
    else d

def deltaHPrime (lab1 lab2 : LAB) : ℝ :=
  2 * Real.sqrt (CPrimeProduct lab1 lab2) * Real.sin (deltahPrime lab1 lab2 / 2)

def barLPrime (lab1 lab2 : LAB) : ℝ := (lab1.l + lab2.l) / 2
def barCPrime (lab1 lab2 : LAB) : ℝ := (CPrime1 lab1 lab2 + CPrime2 lab1 lab2) / 2
def hPrimeSum (lab1 lab2 : LAB) : ℝ := hPrime1 lab1 lab2 + hPrime2 lab1 lab2

def barhPrime (lab1 lab2 : LAB) : ℝ :=
  if CPrime1 lab1 lab2 * CPrime2 lab1 lab2 = 0 then hPrimeSum lab1 lab2
  else if |hPrime1 lab1 lab2 - hPrime2 lab1 lab2| ≤ deg180InRad then hPrimeSum lab1 lab2 / 2
  else if hPrimeSum lab1 lab2 < deg360InRad then (hPrimeSum lab1 lab2 + deg360InRad) / 2
  else (hPrimeSum lab1 lab2 - deg360InRad) / 2

def T (lab1 lab2 : LAB) : ℝ :=
  1 - (0.17 * Real.cos (barhPrime lab1 lab2 - deg2Rad 30)) +
    (0.24 * Real.cos (2 * barhPrime lab1 lab2)) +
    (0.32 * Real.cos ((3 * barhPrime lab1 lab2) + deg2Rad 6)) -
    (0.20 * Real.cos ((4 * barhPrime lab1 lab2) - deg2Rad 63))

def deltaTheta (lab1 lab2 : LAB) : ℝ :=
  deg2Rad 30 * Real.exp (-((barhPrime lab1 lab2 - deg2Rad 275) / deg2Rad 25) ^ 2)

def R_C (lab1 lab2 : LAB) : ℝ :=
  2 * Real.sqrt (barCPrime lab1 lab2 ^ 7 / (barCPrime lab1 lab2 ^ 7 + pow25To7))

def S_L (lab1 lab2 : LAB) : ℝ :=
  1 + ((0.015 * (barLPrime lab1 lab2 - 50) ^ 2) /
    Real.sqrt (20 + (barLPrime lab1 lab2 - 50) ^ 2))

def S_C (lab1 lab2 : LAB) : ℝ := 1 + (0.045 * barCPrime lab1 lab2)

def S_H (lab1 lab2 : LAB) : ℝ := 1 + (0.015 * barCPrime lab1 lab2 * T lab1 lab2)

def R_T (lab1 lab2 : LAB) : ℝ := (-Real.sin (2 * deltaTheta lab1 lab2)) * R_C lab1 lab2

/-- The argument of the final `sqrt` (Equation 22). -/
def radicand (lab1 lab2 : LAB) : ℝ :=
  (deltaLPrime lab1 lab2 / (k_L * S_L lab1 lab2)) ^ 2 +
    (deltaCPrime lab1 lab2 / (k_C * S_C lab1 lab2)) ^ 2 +
    (deltaHPrime lab1 lab2 / (k_H * S_H lab1 lab2)) ^ 2 +
    (R_T lab1 lab2 * (deltaCPrime lab1 lab2 / (k_C * S_C lab1 lab2)) *
      (deltaHPrime lab1 lab2 / (k_H * S_H lab1 lab2)))

def CIEDE2000 (lab1 lab2 : LAB) : ℝ := Real.sqrt (radicand lab1 lab2)

/-! ## `deltaE_matrix` and `deltaE_min` -/

/-- The colour `lab1` built from `pixel` in both loops. -/
def pixelLab (pixel : ℕ → ℝ) : LAB := ⟨pixel 0, pixel 1, pixel 2⟩

/-- The colour `lab2` built from row `row` of `matrix_in` in both loops. -/
def rowLab (matrix_in : ℕ → ℝ) (row : ℕ) : LAB :=
  ⟨matrix_in (row * 3), matrix_in (row * 3 + 1), matrix_in (row * 3 + 2)⟩

/-- One iteration of the loop of `deltaE_matrix`. -/
def deltaE_matrix_step (matrix_in pixel : ℕ → ℝ) (matrix_out : ℕ → ℝ) (row : ℕ) : ℕ → ℝ :=
  Function.update matrix_out row (CIEDE2000 (pixelLab pixel) (rowLab matrix_in row))

/-- Function `deltaE_matrix`: the contents of `matrix_out` after the call. -/
def deltaE_matrix (matrix_in : ℕ → ℝ) (n : ℤ) (pixel : ℕ → ℝ) (matrix_out : ℕ → ℝ) : ℕ → ℝ :=
  (List.range n.toNat).foldl (deltaE_matrix_step matrix_in pixel) matrix_out

/-- One iteration of the loop of `deltaE_min` on the state `(lowest_row, lowest_deltaE)`. -/
def deltaE_min_step (matrix_in pixel : ℕ → ℝ) (st : ℕ × ℝ) (row : ℕ) : ℕ × ℝ :=
  let current_deltaE := CIEDE2000 (pixelLab pixel) (rowLab matrix_in row)
  if current_deltaE < st.2 then (row, current_deltaE) else st

/-- The state `(lowest_row, lowest_deltaE)` of `deltaE_min` after `k` iterations. -/
def deltaE_min_state (matrix_in pixel : ℕ → ℝ) (k : ℕ) : ℕ × ℝ :=
  (List.range k).foldl (deltaE_min_step matrix_in pixel) (0, DBL_MAX)

/-- Function `deltaE_min`. -/
def deltaE_min (matrix_in : ℕ → ℝ) (n : ℤ) (pixel : ℕ → ℝ) : ℕ :=
  (deltaE_min_state matrix_in pixel n.toNat).1

/-- The distance of candidate row `row` from the query, as both loops compute it. -/
def rowDist (matrix_in pixel : ℕ → ℝ) (row : ℕ) : ℝ :=
  CIEDE2000 (pixelLab pixel) (rowLab matrix_in row)

/-- An array holding the given values (cells past the end read `0`). -/
def ofList (xs : List ℝ) : ℕ → ℝ := fun i => xs.getD i 0

/-! ## Overflow and underflow of `double` arithmetic -/

/-- The `double` that holds a distance, as far as overflow goes: a finite `double` is at most
`DBL_MAX` and a finite result of `sqrt` is far below it, so a distance that is not below
`DBL_MAX` is not held as a finite `double` but as `+∞`. -/
def asDouble (x : ℝ) : EReal := if x < DBL_MAX then (x : EReal) else ⊤

/-- Rounding that keeps only the underflow of `double` arithmetic: a result of magnitude at most
`2^(-1075)`, half the least positive `double`, is `0`; every other result is kept exact. -/
def flush (x : ℝ) : ℝ := if |x| ≤ (2 : ℝ)⁻¹ ^ 1075 then 0 else x

/-- The two properties of rounding to `double` (to nearest, below the overflow range) that the
underflow example rests on: magnitudes up to `2^(-1075)` round to `0`, and rounding at most
doubles a magnitude. -/
def RoundsLikeDouble (fl : ℝ → ℝ) : Prop :=
  (∀ x : ℝ, |x| ≤ (2 : ℝ)⁻¹ ^ 1075 → fl x = 0) ∧ ∀ x : ℝ, |fl x| ≤ 2 * |x|

/-- Function `deg2Rad` in rounded arithmetic; `PI / 180.0` is a rounded quotient of the rounded
constant `PI`. -/
def deg2RadFl (fl : ℝ → ℝ) (deg : ℝ) : ℝ :=
  fl (deg * fl (fl 3.14159265358979323846 / 180))

/-- The hue-angle block (Equation 7) in rounded arithmetic. -/
def hPrimeFl (fl : ℝ → ℝ) (b aPrime : ℝ) : ℝ :=
  if b = 0 ∧ aPrime = 0 then 0
  else
    let h := fl (atan2 b aPrime)
    if h < 0 then fl (h + deg2RadFl fl 360) else h

/-- Function `CIEDE2000` in rounded arithmetic: the source line by line, the result of every
arithmetic operation, library call and inexact decimal constant passed through `fl`. -/
def CIEDE2000Fl (fl : ℝ → ℝ) (lab1 lab2 : LAB) : ℝ :=
  let k_L : ℝ := 1
  let k_C : ℝ := 1
  let k_H : ℝ := 1
  let deg360InRad := deg2RadFl fl 360
  let deg180InRad := deg2RadFl fl 180
  let pow25To7 : ℝ := 6103515625
  let C1 := fl (Real.sqrt (fl (fl (lab1.a * lab1.a) + fl (lab1.b * lab1.b))))
  let C2 := fl (Real.sqrt (fl (fl (lab2.a * lab2.a) + fl (lab2.b * lab2.b))))
  let barC := fl (fl (C1 + C2) / 2)
  let G := fl (0.5 * fl (1 - fl (Real.sqrt (fl (fl (barC ^ 7) / fl (fl (barC ^ 7) + pow25To7))))))
  let a1Prime := fl (fl (1 + G) * lab1.a)
  let a2Prime := fl (fl (1 + G) * lab2.a)
  let CPrime1 := fl (Real.sqrt (fl (fl (a1Prime * a1Prime) + fl (lab1.b * lab1.b))))
  let CPrime2 := fl (Real.sqrt (fl (fl (a2Prime * a2Prime) + fl (lab2.b * lab2.b))))
  let hPrime1 := hPrimeFl fl lab1.b a1Prime
  let hPrime2 := hPrimeFl fl lab2.b a2Prime
  let deltaLPrime := fl (lab2.l - lab1.l)
  let deltaCPrime := fl (CPrime2 - CPrime1)
  let CPrimeProduct := fl (CPrime1 * CPrime2)
  let deltahPrime :=
    if CPrimeProduct = 0 then 0
    else
      let d := fl (hPrime2 - hPrime1)
      if d < -deg180InRad then fl (d + deg360InRad)
      else if d > deg180InRad then fl (d - deg360InRad)
      else d
  let deltaHPrime :=
    fl (fl (2 * fl (Real.sqrt CPrimeProduct)) * fl (Real.sin (fl (deltahPrime / 2))))
  let barLPrime := fl (fl (lab1.l + lab2.l) / 2)
  let barCPrime := fl (fl (CPrime1 + CPrime2) / 2)
  let hPrimeSum := fl (hPrime1 + hPrime2)
  let barhPrime :=
    if fl (CPrime1 * CPrime2) = 0 then hPrimeSum
    else if |fl (hPrime1 - hPrime2)| ≤ deg180InRad then fl (hPrimeSum / 2)
    else if hPrimeSum < deg360InRad then fl (fl (hPrimeSum + deg360InRad) / 2)
    else fl (fl (hPrimeSum - deg360InRad) / 2)
  let T :=
    fl (fl (fl (fl (1 - fl (fl 0.17 * fl (Real.cos (fl (barhPrime - deg2RadFl fl 30))))) +
            fl (fl 0.24 * fl (Real.cos (fl (2 * barhPrime))))) +
          fl (fl 0.32 * fl (Real.cos (fl (fl (3 * barhPrime) + deg2RadFl fl 6))))) -
      fl (fl 0.20 * fl (Real.cos (fl (fl (4 * barhPrime) - deg2RadFl fl 63)))))
  let deltaTheta :=
    fl (deg2RadFl fl 30 *
      fl (Real.exp (-fl ((fl (fl (barhPrime - deg2RadFl fl 275) / deg2RadFl fl 25)) ^ 2))))
  let R_C :=
    fl (2 * fl (Real.sqrt (fl (fl (barCPrime ^ 7) / fl (fl (barCPrime ^ 7) + pow25To7)))))
  let S_L :=
    fl (1 + fl (fl (fl 0.015 * fl ((fl (barLPrime - 50)) ^ 2)) /
      fl (Real.sqrt (fl (20 + fl ((fl (barLPrime - 50)) ^ 2))))))
  let S_C := fl (1 + fl (fl 0.045 * barCPrime))
  let S_H := fl (1 + fl (fl (fl 0.015 * barCPrime) * T))
  let R_T := fl (-fl (Real.sin (fl (2 * deltaTheta))) * R_C)
  fl (Real.sqrt
    (fl (fl (fl (fl ((fl (deltaLPrime / fl (k_L * S_L))) ^ 2) +
          fl ((fl (deltaCPrime / fl (k_C * S_C))) ^ 2)) +
        fl ((fl (deltaHPrime / fl (k_H * S_H))) ^ 2)) +
      fl (fl (R_T * fl (deltaCPrime / fl (k_C * S_C))) * fl (deltaHPrime / fl (k_H * S_H))))))

/-! ## Auxiliary definitions for the numerical evaluation of the reference vector -/

/-- The degree-9 sine polynomial. -/
def sinPoly (x : ℝ) : ℝ :=
  x - x ^ 3 / 6 + x ^ 5 / 120 - x ^ 7 / 5040 + x ^ 9 / 362880

/-- The degree-8 cosine polynomial. -/
def cosPoly (x : ℝ) : ℝ :=
  1 - x ^ 2 / 2 + x ^ 4 / 24 - x ^ 6 / 720 + x ^ 8 / 40320

/-- The degree-5 exponential polynomial. -/
def expPoly (x : ℝ) : ℝ := 1 + x + x ^ 2 / 2 + x ^ 3 / 6 + x ^ 4 / 24 + x ^ 5 / 120

/-- First colour of the first reference pair of the specification. -/
def refLab1 : LAB := ⟨50, 2.6772, -79.7751⟩

/-- Second colour of the first reference pair of the specification. -/
def refLab2 : LAB := ⟨50, 0, -82.7485⟩

/-- The angle by which the first hue angle of the reference pair exceeds `3π/2`. -/
def refDelta : ℝ := hPrime1 refLab1 refLab2 - 3 * Real.pi / 2

end

/-! ## Basic facts about the constants and the intermediate quantities -/

theorem PI_pos : 0 < PI := Real.pi_pos

theorem deg180InRad_eq : deg180InRad = Real.pi := by
  unfold deg180InRad deg2Rad PI
  ring

theorem deg360InRad_eq : deg360InRad = 2 * Real.pi := by
  unfold deg360InRad deg2Rad PI
  ring

theorem pow25To7_pos : 0 < pow25To7 := by
  unfold pow25To7
  norm_num

theorem C1_nonneg (lab1 : LAB) : 0 ≤ C1 lab1 := Real.sqrt_nonneg _

theorem C2_nonneg (lab2 : LAB) : 0 ≤ C2 lab2 := Real.sqrt_nonneg _

theorem barC_nonneg (lab1 lab2 : LAB) : 0 ≤ barC lab1 lab2 := by
  have h1 := C1_nonneg lab1
  have h2 := C2_nonneg lab2
  unfold barC
  linarith

theorem CPrime1_nonneg (lab1 lab2 : LAB) : 0 ≤ CPrime1 lab1 lab2 := Real.sqrt_nonneg _

theorem CPrime2_nonneg (lab1 lab2 : LAB) : 0 ≤ CPrime2 lab1 lab2 := Real.sqrt_nonneg _

theorem barCPrime_nonneg (lab1 lab2 : LAB) : 0 ≤ barCPrime lab1 lab2 := by
  have h1 := CPrime1_nonneg lab1 lab2
  have h2 := CPrime2_nonneg lab1 lab2
  unfold barCPrime
  linarith

/-- The quotient under the square roots of `G` and `R_C` lies in `[0, 1)`. -/
theorem ratio_bounds {x : ℝ} (hx : 0 ≤ x) :
    0 ≤ x ^ 7 / (x ^ 7 + pow25To7) ∧ x ^ 7 / (x ^ 7 + pow25To7) < 1 := by
  have hk := pow25To7_pos
  have h7 : 0 ≤ x ^ 7 := pow_nonneg hx 7
  have hd : 0 < x ^ 7 + pow25To7 := by linarith
  refine ⟨div_nonneg h7 hd.le, ?_⟩
  rw [div_lt_one hd]
  linarith

theorem sqrt_ratio_bounds {x : ℝ} (hx : 0 ≤ x) :
    0 ≤ Real.sqrt (x ^ 7 / (x ^ 7 + pow25To7)) ∧
      Real.sqrt (x ^ 7 / (x ^ 7 + pow25To7)) < 1 := by
  obtain ⟨h0, h1⟩ := ratio_bounds hx
  refine ⟨Real.sqrt_nonneg _, ?_⟩
  calc Real.sqrt (x ^ 7 / (x ^ 7 + pow25To7)) < Real.sqrt 1 := Real.sqrt_lt_sqrt h0 h1
    _ = 1 := Real.sqrt_one

theorem G_pos (lab1 lab2 : LAB) : 0 < G lab1 lab2 := by
  have h := (sqrt_ratio_bounds (barC_nonneg lab1 lab2)).2
  unfold G
  linarith

theorem R_C_bounds (lab1 lab2 : LAB) : 0 ≤ R_C lab1 lab2 ∧ R_C lab1 lab2 < 2 := by
  obtain ⟨h0, h1⟩ := sqrt_ratio_bounds (barCPrime_nonneg lab1 lab2)
  unfold R_C
  constructor <;> linarith

theorem R_T_abs_le (lab1 lab2 : LAB) : |R_T lab1 lab2| ≤ 2 := by
  obtain ⟨h0, h1⟩ := R_C_bounds lab1 lab2
  have hs := Real.abs_sin_le_one (2 * deltaTheta lab1 lab2)
  unfold R_T
  rw [abs_mul, abs_neg, abs_of_nonneg h0]
  calc |Real.sin (2 * deltaTheta lab1 lab2)| * R_C lab1 lab2
      ≤ 1 * R_C lab1 lab2 := mul_le_mul_of_nonneg_right hs h0
    _ ≤ 2 := by linarith

/-- A quadratic form `A² + B² + C² + r B C` with `|r| ≤ 2` is non-negative. -/
theorem quad_form_nonneg (A B C r : ℝ) (hr : |r| ≤ 2) :
    0 ≤ A ^ 2 + B ^ 2 + C ^ 2 + r * B * C := by
  obtain ⟨h1, h2⟩ := abs_le.mp hr
  by_cases hbc : 0 ≤ B * C
  · nlinarith [sq_nonneg A, sq_nonneg (B - C), mul_nonneg (by linarith : 0 ≤ r + 2) hbc]
  · push_neg at hbc
    nlinarith [sq_nonneg A, sq_nonneg (B + C), 
      mul_nonneg (by linarith : 0 ≤ 2 - r) (neg_nonneg.mpr hbc.le)]

theorem radicand_nonneg (lab1 lab2 : LAB) : 0 ≤ radicand lab1 lab2 := by
  unfold radicand
  exact quad_form_nonneg _ _ _ _ (R_T_abs_le lab1 lab2)

/-! ## Exchanging the two colours -/

theorem C2_eq_C1 (lab : LAB) : C2 lab = C1 lab := rfl

theorem barC_swap (lab1 lab2 : LAB) : barC lab2 lab1 = barC lab1 lab2 := by
  unfold barC
  rw [C2_eq_C1, ← C2_eq_C1 lab2]
  ring

theorem G_swap (lab1 lab2 : LAB) : G lab2 lab1 = G lab1 lab2 := by
  unfold G
  rw [barC_swap lab1 lab2]

theorem a1Prime_swap (lab1 lab2 : LAB) : a1Prime lab2 lab1 = a2Prime lab1 lab2 := by
  unfold a1Prime a2Prime
  rw [G_swap lab1 lab2]

theorem a2Prime_swap (lab1 lab2 : LAB) : a2Prime lab2 lab1 = a1Prime lab1 lab2 := by
  unfold a1Prime a2Prime
  rw [G_swap lab1 lab2]

theorem CPrime1_swap (lab1 lab2 : LAB) : CPrime1 lab2 lab1 = CPrime2 lab1 lab2 := by
  unfold CPrime1 CPrime2
  rw [a1Prime_swap lab1 lab2]

theorem CPrime2_swap (lab1 lab2 : LAB) : CPrime2 lab2 lab1 = CPrime1 lab1 lab2 := by
  unfold CPrime1 CPrime2
  rw [a2Prime_swap lab1 lab2]

theorem hPrime1_swap (lab1 lab2 : LAB) : hPrime1 lab2 lab1 = hPrime2 lab1 lab2 := by
  unfold hPrime1 hPrime2
  rw [a1Prime_swap lab1 lab2]

theorem hPrime2_swap (lab1 lab2 : LAB) : hPrime2 lab2 lab1 = hPrime1 lab1 lab2 := by
  unfold hPrime1 hPrime2
  rw [a2Prime_swap lab1 lab2]

theorem deltaLPrime_swap (lab1 lab2 : LAB) : deltaLPrime lab2 lab1 = -deltaLPrime lab1 lab2 := by
  unfold deltaLPrime
  ring

theorem deltaCPrime_swap (lab1 lab2 : LAB) : deltaCPrime lab2 lab1 = -deltaCPrime lab1 lab2 := by
  unfold deltaCPrime
  rw [CPrime1_swap lab1 lab2, CPrime2_swap lab1 lab2]
  ring

theorem CPrimeProduct_swap (lab1 lab2 : LAB) :
    CPrimeProduct lab2 lab1 = CPrimeProduct lab1 lab2 := by
  unfold CPrimeProduct
  rw [CPrime1_swap lab1 lab2, CPrime2_swap lab1 lab2]
  ring

/-- The wrap of Equation 10 commutes with negation, also at the unwrapped values `±π`. -/
theorem deltahPrime_swap (lab1 lab2 : LAB) : deltahPrime lab2 lab1 = -deltahPrime lab1 lab2 := by
  unfold deltahPrime
  rw [CPrimeProduct_swap lab1 lab2, hPrime1_swap lab1 lab2, hPrime2_swap lab1 lab2,
    deg180InRad_eq, deg360InRad_eq]
  have hpi := Real.pi_pos
  by_cases hP : CPrimeProduct lab1 lab2 = 0
  · simp [hP]
  · simp only [hP, if_false]
    by_cases h1 : hPrime2 lab1 lab2 - hPrime1 lab1 lab2 < -Real.pi
    · have h2 : ¬ hPrime1 lab1 lab2 - hPrime2 lab1 lab2 < -Real.pi := by linarith
      have h3 : hPrime1 lab1 lab2 - hPrime2 lab1 lab2 > Real.pi := by linarith
      simp only [h1, h2, h3, if_true, if_false]
      ring
    · by_cases h2 : hPrime2 lab1 lab2 - hPrime1 lab1 lab2 > Real.pi
      · have h3 : hPrime1 lab1 lab2 - hPrime2 lab1 lab2 < -Real.pi := by linarith
        simp only [h1, h2, h3, if_true, if_false]
        ring
      · have h3 : ¬ hPrime1 lab1 lab2 - hPrime2 lab1 lab2 < -Real.pi := by linarith
        have h4 : ¬ hPrime1 lab1 lab2 - hPrime2 lab1 lab2 > Real.pi := by linarith
        simp only [h1, h2, h3, h4, if_false]
        ring

theorem deltaHPrime_swap (lab1 lab2 : LAB) : deltaHPrime lab2 lab1 = -deltaHPrime lab1 lab2 := by
  unfold deltaHPrime
  rw [CPrimeProduct_swap lab1 lab2, deltahPrime_swap lab1 lab2, neg_div, Real.sin_neg]
  ring

theorem barLPrime_swap (lab1 lab2 : LAB) : barLPrime lab2 lab1 = barLPrime lab1 lab2 := by
  unfold barLPrime
  ring

theorem barCPrime_swap (lab1 lab2 : LAB) : barCPrime lab2 lab1 = barCPrime lab1 lab2 := by
  unfold barCPrime
  rw [CPrime1_swap lab1 lab2, CPrime2_swap lab1 lab2]
  ring

theorem hPrimeSum_swap (lab1 lab2 : LAB) : hPrimeSum lab2 lab1 = hPrimeSum lab1 lab2 := by
  unfold hPrimeSum
  rw [hPrime1_swap lab1 lab2, hPrime2_swap lab1 lab2]
  ring

/-- All three mean-hue branches are selected by conditions that do not depend on the order. -/
theorem barhPrime_swap (lab1 lab2 : LAB) : barhPrime lab2 lab1 = barhPrime lab1 lab2 := by
  unfold barhPrime
  rw [hPrimeSum_swap lab1 lab2, CPrime1_swap lab1 lab2, CPrime2_swap lab1 lab2,
    hPrime1_swap lab1 lab2, hPrime2_swap lab1 lab2,
    abs_sub_comm (hPrime2 lab1 lab2),
    mul_comm (CPrime2 lab1 lab2)]

theorem T_swap (lab1 lab2 : LAB) : T lab2 lab1 = T lab1 lab2 := by
  unfold T
  rw [barhPrime_swap lab1 lab2]

theorem deltaTheta_swap (lab1 lab2 : LAB) : deltaTheta lab2 lab1 = deltaTheta lab1 lab2 := by
  unfold deltaTheta
  rw [barhPrime_swap lab1 lab2]

theorem R_C_swap (lab1 lab2 : LAB) : R_C lab2 lab1 = R_C lab1 lab2 := by
  unfold R_C
  rw [barCPrime_swap lab1 lab2]

theorem S_L_swap (lab1 lab2 : LAB) : S_L lab2 lab1 = S_L lab1 lab2 := by
  unfold S_L
  rw [barLPrime_swap lab1 lab2]

theorem S_C_swap (lab1 lab2 : LAB) : S_C lab2 lab1 = S_C lab1 lab2 := by
  unfold S_C
  rw [barCPrime_swap lab1 lab2]

theorem S_H_swap (lab1 lab2 : LAB) : S_H lab2 lab1 = S_H lab1 lab2 := by
  unfold S_H
  rw [barCPrime_swap lab1 lab2, T_swap lab1 lab2]

theorem R_T_swap (lab1 lab2 : LAB) : R_T lab2 lab1 = R_T lab1 lab2 := by
  unfold R_T
  rw [deltaTheta_swap lab1 lab2, R_C_swap lab1 lab2]

theorem radicand_swap (lab1 lab2 : LAB) : radicand lab2 lab1 = radicand lab1 lab2 := by
  unfold radicand
  rw [deltaLPrime_swap lab1 lab2, deltaCPrime_swap lab1 lab2, deltaHPrime_swap lab1 lab2,
    S_L_swap lab1 lab2, S_C_swap lab1 lab2, S_H_swap lab1 lab2,
    R_T_swap lab1 lab2]
  ring

/-! ## Two equal colours -/

theorem deltahPrime_self (c : LAB) : deltahPrime c c = 0 := by
  unfold deltahPrime
  rw [deg180InRad_eq]
  have hpi := Real.pi_pos
  have h0 : hPrime2 c c - hPrime1 c c = 0 := by
    unfold hPrime1 hPrime2 a1Prime a2Prime
    ring
  by_cases hP : CPrimeProduct c c = 0
  · simp [hP]
  · have h1 : ¬ (0 : ℝ) < -Real.pi := by linarith
    have h2 : ¬ (0 : ℝ) > Real.pi := by
      intro h
      exact absurd hpi (not_lt.mpr h.le)
    simp only [hP, if_false, h0, h1, h2]

theorem radicand_self (c : LAB) : radicand c c = 0 := by
  have hL : deltaLPrime c c = 0 := by
    unfold deltaLPrime
    ring
  have hC : deltaCPrime c c = 0 := by
    unfold deltaCPrime CPrime1 CPrime2 a1Prime a2Prime
    ring
  have hH : deltaHPrime c c = 0 := by
    unfold deltaHPrime
    rw [deltahPrime_self]
    simp
  unfold radicand
  rw [hL, hC, hH]
  simp

theorem CIEDE2000_self (c : LAB) : CIEDE2000 c c = 0 := by
  unfold CIEDE2000
  rw [radicand_self, Real.sqrt_zero]

/-! ## Achromatic colours -/

theorem CPrime1_achromatic (lab1 lab2 : LAB) (ha : lab1.a = 0) (hb : lab1.b = 0) :
    CPrime1 lab1 lab2 = 0 := by
  unfold CPrime1 a1Prime
  rw [ha, hb]
  simp

theorem CPrime2_achromatic (lab1 lab2 : LAB) (ha : lab2.a = 0) (hb : lab2.b = 0) :
    CPrime2 lab1 lab2 = 0 := by
  unfold CPrime2 a2Prime
  rw [ha, hb]
  simp

theorem hPrime_zero_zero : hPrime 0 0 = 0 := by
  unfold hPrime
  simp

theorem deltahPrime_of_product_zero (lab1 lab2 : LAB) (hP : CPrimeProduct lab1 lab2 = 0) :
    deltahPrime lab1 lab2 = 0 := by
  unfold deltahPrime
  rw [if_pos hP]

theorem deltaHPrime_of_product_zero (lab1 lab2 : LAB) (hP : CPrimeProduct lab1 lab2 = 0) :
    deltaHPrime lab1 lab2 = 0 := by
  unfold deltaHPrime
  rw [hP]
  simp

theorem S_L_ge_one (lab1 lab2 : LAB) : 1 ≤ S_L lab1 lab2 := by
  unfold S_L
  have h : 0 ≤ (0.015 * (barLPrime lab1 lab2 - 50) ^ 2) /
      Real.sqrt (20 + (barLPrime lab1 lab2 - 50) ^ 2) :=
    div_nonneg (mul_nonneg (by norm_num) (sq_nonneg _)) (Real.sqrt_nonneg _)
  linarith

theorem S_C_ge_one (lab1 lab2 : LAB) : 1 ≤ S_C lab1 lab2 := by
  have h := barCPrime_nonneg lab1 lab2
  unfold S_C
  linarith

/-- With an achromatic colour in the pair the hue terms vanish from Equation 22. -/
theorem radicand_of_product_zero (lab1 lab2 : LAB) (hP : CPrimeProduct lab1 lab2 = 0) :
    radicand lab1 lab2 =
      (deltaLPrime lab1 lab2 / S_L lab1 lab2) ^ 2 +
        (deltaCPrime lab1 lab2 / S_C lab1 lab2) ^ 2 := by
  unfold radicand k_L k_C k_H
  rw [deltaHPrime_of_product_zero lab1 lab2 hP]
  simp

/-- For two achromatic colours only the lightness term is left. -/
theorem CIEDE2000_achromatic (lab1 lab2 : LAB) (h1a : lab1.a = 0) (h1b : lab1.b = 0)
    (h2a : lab2.a = 0) (h2b : lab2.b = 0) :
    CIEDE2000 lab1 lab2 = |lab2.l - lab1.l| / S_L lab1 lab2 := by
  have hC1 := CPrime1_achromatic lab1 lab2 h1a h1b
  have hC2 := CPrime2_achromatic lab1 lab2 h2a h2b
  have hP : CPrimeProduct lab1 lab2 = 0 := by
    unfold CPrimeProduct
    rw [hC1]
    simp
  have hdC : deltaCPrime lab1 lab2 = 0 := by
    unfold deltaCPrime
    rw [hC1, hC2]
    simp
  have hS : 0 < S_L lab1 lab2 := lt_of_lt_of_le one_pos (S_L_ge_one lab1 lab2)
  unfold CIEDE2000
  rw [radicand_of_product_zero lab1 lab2 hP, hdC]
  simp only [zero_div, ne_eq, OfNat.ofNat_ne_zero, not_false_eq_true, zero_pow, add_zero]
  rw [Real.sqrt_sq_eq_abs, abs_div, abs_of_pos hS]
  rfl

/-! ## The two loops -/

theorem deltaE_matrix_step_apply (matrix_in pixel matrix_out : ℕ → ℝ) (row i : ℕ) :
    deltaE_matrix_step matrix_in pixel matrix_out row i =
      if i = row then rowDist matrix_in pixel row else matrix_out i := by
  unfold deltaE_matrix_step rowDist
  by_cases h : i = row
  · subst h
    simp
  · simp [Function.update_noteq h, h]

theorem deltaE_matrix_fold (matrix_in pixel matrix_out : ℕ → ℝ) (k i : ℕ) :
    (List.range k).foldl (deltaE_matrix_step matrix_in pixel) matrix_out i =
      if i < k then rowDist matrix_in pixel i else matrix_out i := by
  induction k with
  | zero => simp
  | succ k ih =>
    rw [List.range_succ, List.foldl_append, List.foldl_cons, List.foldl_nil,
      deltaE_matrix_step_apply, ih]
    by_cases hik : i = k
    · subst hik
      simp
    · by_cases hlt : i < k
      · have h2 : i < k + 1 := by omega
        simp [hik, hlt, h2]
      · have h2 : ¬ i < k + 1 := by omega
        simp [hik, hlt, h2]

theorem deltaE_min_state_succ (matrix_in pixel : ℕ → ℝ) (k : ℕ) :
    deltaE_min_state matrix_in pixel (k + 1) =
      deltaE_min_step matrix_in pixel (deltaE_min_state matrix_in pixel k) k := by
  unfold deltaE_min_state
  rw [List.range_succ, List.foldl_append, List.foldl_cons, List.foldl_nil]

theorem deltaE_min_step_eq (matrix_in pixel : ℕ → ℝ) (st : ℕ × ℝ) (row : ℕ) :
    deltaE_min_step matrix_in pixel st row =
      if rowDist matrix_in pixel row < st.2 then (row, rowDist matrix_in pixel row) else st := rfl

/-- Loop invariant of `deltaE_min`: `lowest_deltaE` is a lower bound of the sentinel and of
every distance seen so far; either nothing has gone below the sentinel and `lowest_row` is
still `0`, or `lowest_row` is the first row attaining `lowest_deltaE`. -/
theorem deltaE_min_state_inv (matrix_in pixel : ℕ → ℝ) (k : ℕ) :
    (deltaE_min_state matrix_in pixel k).2 ≤ DBL_MAX ∧
    (∀ j, j < k → (deltaE_min_state matrix_in pixel k).2 ≤ rowDist matrix_in pixel j) ∧
    (((deltaE_min_state matrix_in pixel k).1 = 0 ∧
        (deltaE_min_state matrix_in pixel k).2 = DBL_MAX) ∨
      ((deltaE_min_state matrix_in pixel k).1 < k ∧
        (deltaE_min_state matrix_in pixel k).2 =
          rowDist matrix_in pixel (deltaE_min_state matrix_in pixel k).1 ∧
        ∀ j, j < (deltaE_min_state matrix_in pixel k).1 →
          (deltaE_min_state matrix_in pixel k).2 < rowDist matrix_in pixel j)) := by
  induction k with
  | zero =>
    refine ⟨?_, ?_, Or.inl ⟨?_, ?_⟩⟩ <;> simp [deltaE_min_state]
  | succ k ih =>
    obtain ⟨hM, hlow, hcase⟩ := ih
    rw [deltaE_min_state_succ, deltaE_min_step_eq]
    by_cases hlt : rowDist matrix_in pixel k < (deltaE_min_state matrix_in pixel k).2
    · rw [if_pos hlt]
      refine ⟨?_, ?_, Or.inr ⟨?_, rfl, ?_⟩⟩
      · show rowDist matrix_in pixel k ≤ DBL_MAX
        linarith
      · intro j hj
        show rowDist matrix_in pixel k ≤ rowDist matrix_in pixel j
        rcases Nat.lt_succ_iff_lt_or_eq.mp hj with h | h
        · exact le_trans hlt.le (hlow j h)
        · rw [h]
      · show k < k + 1
        omega
      · intro j hj
        show rowDist matrix_in pixel k < rowDist matrix_in pixel j
        exact lt_of_lt_of_le hlt (hlow j hj)
    · rw [if_neg hlt]
      refine ⟨hM, ?_, ?_⟩
      · intro j hj
        rcases Nat.lt_succ_iff_lt_or_eq.mp hj with h | h
        · exact hlow j h
        · rw [h]
          exact not_lt.mp hlt
      · rcases hcase with h | ⟨h1, h2, h3⟩
        · exact Or.inl h
        · exact Or.inr ⟨by omega, h2, h3⟩

/-- After the loop, `lowest_row` is an index of the minimum as soon as one distance is below
the sentinel. -/
theorem deltaE_min_state_le (matrix_in pixel : ℕ → ℝ) (k : ℕ)
    (hex : ∃ i, i < k ∧ rowDist matrix_in pixel i < DBL_MAX) :
    ∀ i, i < k →
      rowDist matrix_in pixel (deltaE_min_state matrix_in pixel k).1 ≤
        rowDist matrix_in pixel i := by
  obtain ⟨i0, hi0, hd0⟩ := hex
  obtain ⟨_, hlow, hcase⟩ := deltaE_min_state_inv matrix_in pixel k
  rcases hcase with ⟨_, h2⟩ | ⟨_, h2, _⟩
  · have := hlow i0 hi0
    rw [h2] at this
    exact absurd hd0 (not_lt.mpr this)
  · intro i hi
    rw [← h2]
    exact hlow i hi

/-- The returned row is the first one attaining its distance. -/
theorem deltaE_min_state_first (matrix_in pixel : ℕ → ℝ) (k j : ℕ)
    (hj : j < (deltaE_min_state matrix_in pixel k).1) :
    rowDist matrix_in pixel (deltaE_min_state matrix_in pixel k).1 <
      rowDist matrix_in pixel j := by
  obtain ⟨_, _, hcase⟩ := deltaE_min_state_inv matrix_in pixel k
  rcases hcase with ⟨h1, _⟩ | ⟨_, h2, h3⟩
  · omega
  · rw [← h2]
    exact h3 j hj

theorem deltaE_min_state_lt (matrix_in pixel : ℕ → ℝ) (k : ℕ) (hk : 0 < k) :
    (deltaE_min_state matrix_in pixel k).1 < k := by
  obtain ⟨_, _, hcase⟩ := deltaE_min_state_inv matrix_in pixel k
  rcases hcase with ⟨h1, _⟩ | ⟨h1, _, _⟩
  · omega
  · exact h1

theorem toNat_lt_iff (i : ℕ) (n : ℤ) : i < n.toNat ↔ (i : ℤ) < n := by
  omega

/-- The sentinel is positive. -/
theorem DBL_MAX_pos : 0 < DBL_MAX := by
  unfold DBL_MAX
  norm_num

theorem asDouble_of_lt {x : ℝ} (h : x < DBL_MAX) : asDouble x = (x : EReal) := by
  unfold asDouble
  rw [if_pos h]

theorem asDouble_of_not_lt {x : ℝ} (h : ¬ x < DBL_MAX) : asDouble x = ⊤ := by
  unfold asDouble
  rw [if_neg h]

theorem asDouble_mono {x y : ℝ} (h : x ≤ y) : asDouble x ≤ asDouble y := by
  by_cases hy : y < DBL_MAX
  · rw [asDouble_of_lt hy, asDouble_of_lt (lt_of_le_of_lt h hy)]
    exact EReal.coe_le_coe_iff.mpr h
  · rw [asDouble_of_not_lt hy]
    exact le_top

theorem asDouble_lt {x y : ℝ} (hx : x < DBL_MAX) (h : x < y) : asDouble x < asDouble y := by
  rw [asDouble_of_lt hx]
  by_cases hy : y < DBL_MAX
  · rw [asDouble_of_lt hy]
    exact EReal.coe_lt_coe_iff.mpr h
  · rw [asDouble_of_not_lt hy]
    exact EReal.coe_lt_top x

/-- Second loop invariant of `deltaE_min`: either `lowest_row` is still the initial `0`, the
sentinel is still in `lowest_deltaE` and no distance seen so far is below it, or `lowest_row`
is a row seen so far whose distance is in `lowest_deltaE` and is below the sentinel. -/
theorem deltaE_min_state_cases (matrix_in pixel : ℕ → ℝ) (k : ℕ) :
    ((deltaE_min_state matrix_in pixel k).1 = 0 ∧
        (deltaE_min_state matrix_in pixel k).2 = DBL_MAX ∧
        ∀ j, j < k → ¬ rowDist matrix_in pixel j < DBL_MAX) ∨
      ((deltaE_min_state matrix_in pixel k).1 < k ∧
        (deltaE_min_state matrix_in pixel k).2 =
          rowDist matrix_in pixel (deltaE_min_state matrix_in pixel k).1 ∧
        (deltaE_min_state matrix_in pixel k).2 < DBL_MAX) := by
  induction k with
  | zero =>
    refine Or.inl ⟨rfl, rfl, ?_⟩
    intro j hj
    omega
  | succ k ih =>
    obtain ⟨hM, _, _⟩ := deltaE_min_state_inv matrix_in pixel k
    rw [deltaE_min_state_succ, deltaE_min_step_eq]
    by_cases hlt : rowDist matrix_in pixel k < (deltaE_min_state matrix_in pixel k).2
    · rw [if_pos hlt]
      refine Or.inr ⟨?_, rfl, ?_⟩
      · show k < k + 1
        omega
      · show rowDist matrix_in pixel k < DBL_MAX
        linarith
    · rw [if_neg hlt]
      rcases ih with ⟨h1, h2, h3⟩ | ⟨h1, h2, h3⟩
      · refine Or.inl ⟨h1, h2, ?_⟩
        intro j hj
        rcases Nat.lt_succ_iff_lt_or_eq.mp hj with h | h
        · exact h3 j h
        · rw [h, ← h2]
          exact hlt
      · exact Or.inr ⟨by omega, h2, h3⟩

/-- After the loop, the returned row attains the minimum of the distances as held in
`double`s. -/
theorem deltaE_min_state_min (matrix_in pixel : ℕ → ℝ) (k i : ℕ) (hi : i < k) :
    asDouble (rowDist matrix_in pixel (deltaE_min_state matrix_in pixel k).1) ≤
      asDouble (rowDist matrix_in pixel i) := by
  obtain ⟨_, hlow, _⟩ := deltaE_min_state_inv matrix_in pixel k
  rcases deltaE_min_state_cases matrix_in pixel k with ⟨_, _, h3⟩ | ⟨_, h2, _⟩
  · rw [asDouble_of_not_lt (h3 i hi)]
    exact le_top
  · apply asDouble_mono
    rw [← h2]
    exact hlow i hi

/-- No row before the returned one attains the minimum. -/
theorem deltaE_min_state_strict (matrix_in pixel : ℕ → ℝ) (k j : ℕ)
    (hj : j < (deltaE_min_state matrix_in pixel k).1) :
    asDouble (rowDist matrix_in pixel (deltaE_min_state matrix_in pixel k).1) <
      asDouble (rowDist matrix_in pixel j) := by
  have hlt := deltaE_min_state_first matrix_in pixel k j hj
  rcases deltaE_min_state_cases matrix_in pixel k with ⟨h1, _, _⟩ | ⟨_, h2, h3⟩
  · omega
  · rw [h2] at h3
    exact asDouble_lt h3 hlt

/-! ## Range of the hue angle and of the hue difference -/

theorem hPrime_range (b aPrime : ℝ) : 0 ≤ hPrime b aPrime ∧ hPrime b aPrime < 2 * Real.pi := by
  have hpi := Real.pi_pos
  have h1 := Complex.neg_pi_lt_arg ⟨aPrime, b⟩
  have h2 := Complex.arg_le_pi ⟨aPrime, b⟩
  unfold hPrime atan2
  rw [deg360InRad_eq]
  by_cases h0 : b = 0 ∧ aPrime = 0
  · rw [if_pos h0]
    constructor <;> linarith
  · rw [if_neg h0]
    by_cases hneg : Complex.arg ⟨aPrime, b⟩ < 0
    · simp only [hneg, if_true]
      constructor <;> linarith
    · simp only [hneg, if_false]
      constructor <;> linarith

/-- The wrap of Equation 10 lands in the closed interval `[-π, π]`, and on `-π` exactly when
the raw difference is `-π`. -/
theorem deltahPrime_range (lab1 lab2 : LAB) (hP : CPrimeProduct lab1 lab2 ≠ 0) :
    -Real.pi ≤ deltahPrime lab1 lab2 ∧ deltahPrime lab1 lab2 ≤ Real.pi ∧
      (deltahPrime lab1 lab2 = -Real.pi ↔ hPrime2 lab1 lab2 - hPrime1 lab1 lab2 = -Real.pi) := by
  have hpi := Real.pi_pos
  obtain ⟨h1l, h1u⟩ := hPrime_range lab1.b (a1Prime lab1 lab2)
  obtain ⟨h2l, h2u⟩ := hPrime_range lab2.b (a2Prime lab1 lab2)
  unfold deltahPrime
  rw [if_neg hP, deg180InRad_eq, deg360InRad_eq]
  unfold hPrime1 hPrime2
  by_cases c1 : hPrime lab2.b (a2Prime lab1 lab2) - hPrime lab1.b (a1Prime lab1 lab2) < -Real.pi
  · simp only [c1, if_true]
    refine ⟨by linarith, by linarith, ?_⟩
    constructor <;> intro h <;> linarith
  · by_cases c2 : hPrime lab2.b (a2Prime lab1 lab2) - hPrime lab1.b (a1Prime lab1 lab2) > Real.pi
    · simp only [c1, c2, if_true, if_false]
      refine ⟨by linarith, by linarith, ?_⟩
      constructor <;> intro h <;> linarith
    · rw [if_neg c1, if_neg c2]
      exact ⟨by linarith, by linarith, Iff.rfl⟩

theorem atan2_zero_of_neg {x : ℝ} (hx : x < 0) : atan2 0 x = Real.pi := by
  unfold atan2
  exact Complex.arg_ofReal_of_neg hx

theorem atan2_zero_of_nonneg {x : ℝ} (hx : 0 ≤ x) : atan2 0 x = 0 := by
  unfold atan2
  exact Complex.arg_ofReal_of_nonneg hx

/-- The pair `{50, -1, 0}`, `{50, 1, 0}`: opposite hues on the `a` axis. -/
theorem opposite_hues :
    CPrime1 ⟨50, -1, 0⟩ ⟨50, 1, 0⟩ * CPrime2 ⟨50, -1, 0⟩ ⟨50, 1, 0⟩ ≠ 0 ∧
      hPrime1 ⟨50, -1, 0⟩ ⟨50, 1, 0⟩ = Real.pi ∧ hPrime2 ⟨50, -1, 0⟩ ⟨50, 1, 0⟩ = 0 := by
  have hpi := Real.pi_pos
  have hG := G_pos ⟨50, -1, 0⟩ ⟨50, 1, 0⟩
  have ha1 : a1Prime ⟨50, -1, 0⟩ ⟨50, 1, 0⟩ = -(1 + G ⟨50, -1, 0⟩ ⟨50, 1, 0⟩) := by
    unfold a1Prime
    simp
  have ha2 : a2Prime ⟨50, -1, 0⟩ ⟨50, 1, 0⟩ = 1 + G ⟨50, -1, 0⟩ ⟨50, 1, 0⟩ := by
    unfold a2Prime
    simp
  have hC1 : CPrime1 ⟨50, -1, 0⟩ ⟨50, 1, 0⟩ = 1 + G ⟨50, -1, 0⟩ ⟨50, 1, 0⟩ := by
    unfold CPrime1
    rw [ha1]
    simp only [mul_zero, add_zero, neg_mul_neg]
    exact Real.sqrt_mul_self (by linarith)
  have hC2 : CPrime2 ⟨50, -1, 0⟩ ⟨50, 1, 0⟩ = 1 + G ⟨50, -1, 0⟩ ⟨50, 1, 0⟩ := by
    unfold CPrime2
    rw [ha2]
    simp only [mul_zero, add_zero]
    exact Real.sqrt_mul_self (by linarith)
  refine ⟨?_, ?_, ?_⟩
  · rw [hC1, hC2]
    exact (mul_pos (by linarith) (by linarith)).ne.symm
  · unfold hPrime1 hPrime
    rw [ha1]
    have hne : ¬ ((0 : ℝ) = 0 ∧ -(1 + G ⟨50, -1, 0⟩ ⟨50, 1, 0⟩) = 0) := by
      intro h
      linarith [h.2]
    have hat : atan2 0 (-(1 + G ⟨50, -1, 0⟩ ⟨50, 1, 0⟩)) = Real.pi :=
      atan2_zero_of_neg (by linarith)
    show (if (0 : ℝ) = 0 ∧ -(1 + G ⟨50, -1, 0⟩ ⟨50, 1, 0⟩) = 0 then (0 : ℝ)
      else if atan2 0 (-(1 + G ⟨50, -1, 0⟩ ⟨50, 1, 0⟩)) < 0
        then atan2 0 (-(1 + G ⟨50, -1, 0⟩ ⟨50, 1, 0⟩)) + deg360InRad
        else atan2 0 (-(1 + G ⟨50, -1, 0⟩ ⟨50, 1, 0⟩))) = Real.pi
    rw [if_neg hne, hat, if_neg (not_lt.mpr hpi.le)]
  · unfold hPrime2 hPrime
    rw [ha2]
    have hne : ¬ ((0 : ℝ) = 0 ∧ 1 + G ⟨50, -1, 0⟩ ⟨50, 1, 0⟩ = 0) := by
      intro h
      linarith [h.2]
    have hat : atan2 0 (1 + G ⟨50, -1, 0⟩ ⟨50, 1, 0⟩) = 0 :=
      atan2_zero_of_nonneg (by linarith)
    show (if (0 : ℝ) = 0 ∧ 1 + G ⟨50, -1, 0⟩ ⟨50, 1, 0⟩ = 0 then (0 : ℝ)
      else if atan2 0 (1 + G ⟨50, -1, 0⟩ ⟨50, 1, 0⟩) < 0
        then atan2 0 (1 + G ⟨50, -1, 0⟩ ⟨50, 1, 0⟩) + deg360InRad
        else atan2 0 (1 + G ⟨50, -1, 0⟩ ⟨50, 1, 0⟩)) = 0
    rw [if_neg hne, hat, if_neg (lt_irrefl 0)]

/-! ## Claims C1, C2, C3 -/

/-- C1 (symmetry): for all Lab colours `c1`, `c2`, `CIEDE2000 c1 c2 = CIEDE2000 c2 c1`;
every branch of the hue difference and of the mean hue is covered, including a raw hue
difference of exactly `±π`, which is negated but not wrapped. -/
theorem CIEDE2000_symmetry (c1 c2 : LAB) : CIEDE2000 c1 c2 = CIEDE2000 c2 c1 := by
  unfold CIEDE2000
  rw [radicand_swap c2 c1]

/-- C2 (identity): for every Lab colour `c`, achromatic or not, `CIEDE2000 c c = 0`. -/
theorem CIEDE2000_identity (c : LAB) : CIEDE2000 c c = 0 := by
  unfold CIEDE2000
  rw [radicand_self, Real.sqrt_zero]

/-- C3 (non-negativity): for all Lab colours `c1`, `c2`, the value `CIEDE2000 c1 c2` is the
square root of a non-negative radicand, and it is `≥ 0`. -/
theorem CIEDE2000_nonnegativity (c1 c2 : LAB) :
    0 ≤ radicand c1 c2 ∧ CIEDE2000 c1 c2 ^ 2 = radicand c1 c2 ∧ 0 ≤ CIEDE2000 c1 c2 := by
  refine ⟨radicand_nonneg c1 c2, ?_, Real.sqrt_nonneg _⟩
  unfold CIEDE2000
  exact Real.sq_sqrt (radicand_nonneg c1 c2)

/-! ## Claims C5, C6, C7 -/

theorem rowDist_nonneg (matrix_in pixel : ℕ → ℝ) (row : ℕ) : 0 ≤ rowDist matrix_in pixel row :=
  Real.sqrt_nonneg _

/-- The distance `CIEDE2000 {50,0,0} {60,0,0}` is positive and at most `10`. -/
theorem CIEDE2000_50_60 :
    0 < CIEDE2000 ⟨50, 0, 0⟩ ⟨60, 0, 0⟩ ∧ CIEDE2000 ⟨50, 0, 0⟩ ⟨60, 0, 0⟩ ≤ 10 := by
  have hS := S_L_ge_one ⟨50, 0, 0⟩ ⟨60, 0, 0⟩
  have hS0 : 0 < S_L ⟨50, 0, 0⟩ ⟨60, 0, 0⟩ := by linarith
  rw [CIEDE2000_achromatic ⟨50, 0, 0⟩ ⟨60, 0, 0⟩ rfl rfl rfl rfl]
  have habs : |(60 : ℝ) - 50| = 10 := by norm_num
  show 0 < |(60 : ℝ) - 50| / _ ∧ |(60 : ℝ) - 50| / _ ≤ 10
  rw [habs]
  refine ⟨by positivity, ?_⟩
  rw [div_le_iff₀ hS0]
  linarith

/-- C5 (tie-break): for a non-empty candidate matrix, `deltaE_min` returns the lowest index
attaining the minimum distance: the returned index `r` is a row of the matrix, its distance is
at most that of every row `i` in `0..n-1`, and every row `j` strictly before `r` has a strictly
larger distance (distances compared as the `double`s that hold them, and, for the rows before
`r`, also as real numbers). With candidates `[{50,0,0},{50,0,0},{60,0,0}]` and query
`{50,0,0}` it returns `0`. -/
theorem deltaE_min_lowest_index :
    (∀ (matrix_in : ℕ → ℝ) (n : ℤ) (pixel : ℕ → ℝ), 1 ≤ n →
      (deltaE_min matrix_in n pixel : ℤ) < n ∧
      (∀ i : ℕ, (i : ℤ) < n →
        asDouble (CIEDE2000 (pixelLab pixel)
            (rowLab matrix_in (deltaE_min matrix_in n pixel))) ≤
          asDouble (CIEDE2000 (pixelLab pixel) (rowLab matrix_in i))) ∧
      (∀ j : ℕ, j < deltaE_min matrix_in n pixel →
        asDouble (CIEDE2000 (pixelLab pixel)
            (rowLab matrix_in (deltaE_min matrix_in n pixel))) <
          asDouble (CIEDE2000 (pixelLab pixel) (rowLab matrix_in j)) ∧
        CIEDE2000 (pixelLab pixel) (rowLab matrix_in (deltaE_min matrix_in n pixel)) <
          CIEDE2000 (pixelLab pixel) (rowLab matrix_in j))) ∧
      deltaE_min (ofList [50, 0, 0, 50, 0, 0, 60, 0, 0]) 3 (ofList [50, 0, 0]) = 0 := by
  have huniv : ∀ (matrix_in : ℕ → ℝ) (n : ℤ) (pixel : ℕ → ℝ) (j : ℕ),
      j < deltaE_min matrix_in n pixel →
        CIEDE2000 (pixelLab pixel) (rowLab matrix_in (deltaE_min matrix_in n pixel)) <
          CIEDE2000 (pixelLab pixel) (rowLab matrix_in j) :=
    fun matrix_in n pixel j hj => deltaE_min_state_first matrix_in pixel n.toNat j hj
  refine ⟨?_, ?_⟩
  · intro matrix_in n pixel hn
    refine ⟨?_, ?_, ?_⟩
    · have hk : 0 < n.toNat := by omega
      have h := deltaE_min_state_lt matrix_in pixel n.toNat hk
      have h2 : deltaE_min matrix_in n pixel < n.toNat := h
      omega
    · intro i hi
      exact deltaE_min_state_min matrix_in pixel n.toNat i ((toNat_lt_iff i n).mpr hi)
    · intro j hj
      exact ⟨deltaE_min_state_strict matrix_in pixel n.toNat j hj, huniv matrix_in n pixel j hj⟩
  · by_contra hne
    have hpos : 0 < deltaE_min (ofList [50, 0, 0, 50, 0, 0, 60, 0, 0]) 3 (ofList [50, 0, 0]) :=
      Nat.pos_of_ne_zero hne
    have hlt := huniv _ 3 _ 0 hpos
    have h0 : CIEDE2000 (pixelLab (ofList [50, 0, 0]))
        (rowLab (ofList [50, 0, 0, 50, 0, 0, 60, 0, 0]) 0) = 0 := by
      have : rowLab (ofList [50, 0, 0, 50, 0, 0, 60, 0, 0]) 0 = pixelLab (ofList [50, 0, 0]) := by
        simp [rowLab, pixelLab, ofList]
      rw [this]
      exact CIEDE2000_self _
    rw [h0] at hlt
    exact absurd hlt (not_lt.mpr (Real.sqrt_nonneg _))

/-- Witness for C5 with a returned index that has a predecessor: candidates
`[{60,0,0},{50,0,0}]` and query `{50,0,0}` return a row after row `0`, in range, whose
distance is at most that of row `1` and strictly below that of row `0`. -/
theorem deltaE_min_lowest_index_witness :
    (1 : ℤ) ≤ 2 ∧ 0 < deltaE_min (ofList [60, 0, 0, 50, 0, 0]) 2 (ofList [50, 0, 0]) ∧
      (deltaE_min (ofList [60, 0, 0, 50, 0, 0]) 2 (ofList [50, 0, 0]) : ℤ) < 2 ∧
      asDouble (CIEDE2000 (pixelLab (ofList [50, 0, 0]))
          (rowLab (ofList [60, 0, 0, 50, 0, 0])
            (deltaE_min (ofList [60, 0, 0, 50, 0, 0]) 2 (ofList [50, 0, 0])))) ≤
        asDouble (CIEDE2000 (pixelLab (ofList [50, 0, 0]))
          (rowLab (ofList [60, 0, 0, 50, 0, 0]) 1)) ∧
      asDouble (CIEDE2000 (pixelLab (ofList [50, 0, 0]))
          (rowLab (ofList [60, 0, 0, 50, 0, 0])
            (deltaE_min (ofList [60, 0, 0, 50, 0, 0]) 2 (ofList [50, 0, 0])))) <
        asDouble (CIEDE2000 (pixelLab (ofList [50, 0, 0]))
          (rowLab (ofList [60, 0, 0, 50, 0, 0]) 0)) := by
  have hp : pixelLab (ofList [50, 0, 0]) = ⟨50, 0, 0⟩ := by
    simp [pixelLab, ofList]
  have hr0 : rowLab (ofList [60, 0, 0, 50, 0, 0]) 0 = ⟨60, 0, 0⟩ := by
    simp [rowLab, ofList]
  have hr1 : rowLab (ofList [60, 0, 0, 50, 0, 0]) 1 = ⟨50, 0, 0⟩ := by
    simp [rowLab, ofList]
  have hd0 : rowDist (ofList [60, 0, 0, 50, 0, 0]) (ofList [50, 0, 0]) 0 =
      CIEDE2000 ⟨50, 0, 0⟩ ⟨60, 0, 0⟩ := by
    unfold rowDist
    rw [hp, hr0]
  have hd1 : rowDist (ofList [60, 0, 0, 50, 0, 0]) (ofList [50, 0, 0]) 1 = 0 := by
    unfold rowDist
    rw [hp, hr1]
    exact CIEDE2000_self _
  have hle := deltaE_min_state_le (ofList [60, 0, 0, 50, 0, 0]) (ofList [50, 0, 0]) 2
    ⟨1, by norm_num, by rw [hd1]; exact DBL_MAX_pos⟩ 1 (by norm_num)
  rw [hd1] at hle
  have hpos : 0 < deltaE_min (ofList [60, 0, 0, 50, 0, 0]) 2 (ofList [50, 0, 0]) := by
    by_contra hne
    have h0 : (deltaE_min_state (ofList [60, 0, 0, 50, 0, 0]) (ofList [50, 0, 0]) 2).1 = 0 := by
      have : deltaE_min (ofList [60, 0, 0, 50, 0, 0]) 2 (ofList [50, 0, 0]) = 0 := by omega
      exact this
    rw [h0, hd0] at hle
    exact absurd CIEDE2000_50_60.1 (not_lt.mpr hle)
  obtain ⟨hrange, hmin, hfirst⟩ := deltaE_min_lowest_index.1 (ofList [60, 0, 0, 50, 0, 0]) 2
    (ofList [50, 0, 0]) (by norm_num)
  exact ⟨by norm_num, hpos, hrange, hmin 1 (by norm_num), (hfirst 0 hpos).1⟩

/-- C6 (distance vector): after `deltaE_matrix`, entry `i` of the output is
`CIEDE2000 (pixel, row i)` for every `i` in `0..n-1`, with the query as first argument and
row `i = (matrix_in[3i], matrix_in[3i+1], matrix_in[3i+2])` as second, and every entry at an
index `≥ n` is unchanged; so exactly `n` entries are computed, none skipped or reordered. -/
theorem deltaE_matrix_spec (matrix_in : ℕ → ℝ) (n : ℤ) (pixel matrix_out : ℕ → ℝ) (i : ℕ) :
    deltaE_matrix matrix_in n pixel matrix_out i =
      if (i : ℤ) < n then
        CIEDE2000 ⟨pixel 0, pixel 1, pixel 2⟩
          ⟨matrix_in (3 * i), matrix_in (3 * i + 1), matrix_in (3 * i + 2)⟩
      else matrix_out i := by
  unfold deltaE_matrix
  rw [deltaE_matrix_fold]
  unfold rowDist pixelLab rowLab
  rw [mul_comm i 3]
  by_cases h : (i : ℤ) < n
  · rw [if_pos h, if_pos ((toNat_lt_iff i n).mpr h)]
  · rw [if_neg h, if_neg (fun h2 => h ((toNat_lt_iff i n).mp h2))]

/-- C7 (empty candidate set), as the code behaves: with `n = 0` the loop body never runs and
`deltaE_min` returns the initial `lowest_row = 0`; no error is signalled. -/
theorem deltaE_min_zero (matrix_in pixel : ℕ → ℝ) : deltaE_min matrix_in 0 pixel = 0 := by
  simp [deltaE_min, deltaE_min_state]

/-- Counterexample to C7: for the query `{50,0,0}`, the call with zero candidates returns the
index `0`, the very value returned for the one-candidate set `[{50,0,0}]`, whose row `0` is an
exact match. -/
theorem deltaE_min_empty_returns_default :
    deltaE_min (ofList []) 0 (ofList [50, 0, 0]) = 0 ∧
      deltaE_min (ofList [50, 0, 0]) 1 (ofList [50, 0, 0]) = 0 := by
  refine ⟨by simp [deltaE_min, deltaE_min_state], ?_⟩
  have h := deltaE_min_state_lt (ofList [50, 0, 0]) (ofList [50, 0, 0]) 1 (by norm_num)
  have : deltaE_min (ofList [50, 0, 0]) 1 (ofList [50, 0, 0]) < 1 := h
  omega

/-! ## Claim C4 -/

/-- With mean lightness `0` the lightness weight is at most `2`. -/
theorem S_L_le_two (lab1 lab2 : LAB) (h : barLPrime lab1 lab2 = 0) : S_L lab1 lab2 ≤ 2 := by
  unfold S_L
  rw [h]
  have he : (20 : ℝ) + (0 - 50) ^ 2 = 2520 := by norm_num
  have hn : (0.015 : ℝ) * (0 - 50) ^ 2 = 75 / 2 := by norm_num
  rw [he, hn]
  have hs : (75 / 2 : ℝ) ≤ Real.sqrt 2520 := by
    apply Real.le_sqrt_of_sq_le
    norm_num
  have hpos : (0 : ℝ) < Real.sqrt 2520 := by linarith
  have : (75 / 2 : ℝ) / Real.sqrt 2520 ≤ 1 := (div_le_one hpos).mpr hs
  linarith

/-- An input on which every distance overflows: for the query `{-DBL_MAX, 0, 0}` and the
candidates `[{DBL_MAX, 1, 0}, {DBL_MAX, 0, 0}]` neither distance is below the sentinel, both
are held as `+∞`, and the scan keeps the initial `lowest_row = 0`. -/
theorem deltaE_min_overflow_rows :
    deltaE_min (ofList [DBL_MAX, 1, 0, DBL_MAX, 0, 0]) 2 (ofList [-DBL_MAX, 0, 0]) = 0 ∧
      asDouble (CIEDE2000 (pixelLab (ofList [-DBL_MAX, 0, 0]))
        (rowLab (ofList [DBL_MAX, 1, 0, DBL_MAX, 0, 0]) 0)) = ⊤ ∧
      asDouble (CIEDE2000 (pixelLab (ofList [-DBL_MAX, 0, 0]))
        (rowLab (ofList [DBL_MAX, 1, 0, DBL_MAX, 0, 0]) 1)) = ⊤ := by
  have hM := DBL_MAX_pos
  have hp : pixelLab (ofList [-DBL_MAX, 0, 0]) = ⟨-DBL_MAX, 0, 0⟩ := by
    simp [pixelLab, ofList]
  have hr0 : rowLab (ofList [DBL_MAX, 1, 0, DBL_MAX, 0, 0]) 0 = ⟨DBL_MAX, 1, 0⟩ := by
    simp [rowLab, ofList]
  have hr1 : rowLab (ofList [DBL_MAX, 1, 0, DBL_MAX, 0, 0]) 1 = ⟨DBL_MAX, 0, 0⟩ := by
    simp [rowLab, ofList]
  -- the lightness term is the same for both rows
  have hSL : S_L ⟨-DBL_MAX, 0, 0⟩ ⟨DBL_MAX, 1, 0⟩ = S_L ⟨-DBL_MAX, 0, 0⟩ ⟨DBL_MAX, 0, 0⟩ := rfl
  have hdL : deltaLPrime ⟨-DBL_MAX, 0, 0⟩ ⟨DBL_MAX, 1, 0⟩ = 2 * DBL_MAX := by
    unfold deltaLPrime
    ring
  have hS1 : 1 ≤ S_L ⟨-DBL_MAX, 0, 0⟩ ⟨DBL_MAX, 0, 0⟩ := S_L_ge_one _ _
  have hS2 : S_L ⟨-DBL_MAX, 0, 0⟩ ⟨DBL_MAX, 0, 0⟩ ≤ 2 := by
    apply S_L_le_two
    unfold barLPrime
    simp
  have hS0 : 0 < S_L ⟨-DBL_MAX, 0, 0⟩ ⟨DBL_MAX, 0, 0⟩ := by linarith
  -- row 1: an achromatic pair
  have hd1 : CIEDE2000 ⟨-DBL_MAX, 0, 0⟩ ⟨DBL_MAX, 0, 0⟩ =
      2 * DBL_MAX / S_L ⟨-DBL_MAX, 0, 0⟩ ⟨DBL_MAX, 0, 0⟩ := by
    rw [CIEDE2000_achromatic _ _ rfl rfl rfl rfl]
    have : |DBL_MAX - -DBL_MAX| = 2 * DBL_MAX := by
      rw [abs_of_pos (by linarith)]
      ring
    show |DBL_MAX - -DBL_MAX| / _ = _
    rw [this]
  have hd1M : DBL_MAX ≤ CIEDE2000 ⟨-DBL_MAX, 0, 0⟩ ⟨DBL_MAX, 0, 0⟩ := by
    rw [hd1, le_div_iff₀ hS0]
    nlinarith
  -- row 0: the chroma term is added
  have hP0 : CPrimeProduct ⟨-DBL_MAX, 0, 0⟩ ⟨DBL_MAX, 1, 0⟩ = 0 := by
    unfold CPrimeProduct
    rw [CPrime1_achromatic _ _ rfl rfl]
    simp
  have hG := G_pos ⟨-DBL_MAX, 0, 0⟩ ⟨DBL_MAX, 1, 0⟩
  have hC2 : CPrime2 ⟨-DBL_MAX, 0, 0⟩ ⟨DBL_MAX, 1, 0⟩ =
      1 + G ⟨-DBL_MAX, 0, 0⟩ ⟨DBL_MAX, 1, 0⟩ := by
    unfold CPrime2 a2Prime
    simp only [mul_one, mul_zero, add_zero]
    rw [Real.sqrt_mul_self (by linarith)]
  have hdC : 0 < deltaCPrime ⟨-DBL_MAX, 0, 0⟩ ⟨DBL_MAX, 1, 0⟩ := by
    unfold deltaCPrime
    rw [CPrime1_achromatic _ _ rfl rfl, hC2]
    linarith
  have hSC : 0 < S_C ⟨-DBL_MAX, 0, 0⟩ ⟨DBL_MAX, 1, 0⟩ :=
    lt_of_lt_of_le one_pos (S_C_ge_one _ _)
  have hB : 0 < deltaCPrime ⟨-DBL_MAX, 0, 0⟩ ⟨DBL_MAX, 1, 0⟩ /
      S_C ⟨-DBL_MAX, 0, 0⟩ ⟨DBL_MAX, 1, 0⟩ := div_pos hdC hSC
  have hlt : CIEDE2000 ⟨-DBL_MAX, 0, 0⟩ ⟨DBL_MAX, 0, 0⟩ <
      CIEDE2000 ⟨-DBL_MAX, 0, 0⟩ ⟨DBL_MAX, 1, 0⟩ := by
    have hq : 0 ≤ 2 * DBL_MAX / S_L ⟨-DBL_MAX, 0, 0⟩ ⟨DBL_MAX, 0, 0⟩ := by positivity
    rw [hd1, ← Real.sqrt_sq hq]
    unfold CIEDE2000
    rw [radicand_of_product_zero _ _ hP0, hdL, hSL]
    apply Real.sqrt_lt_sqrt (sq_nonneg _)
    have := pow_pos hB 2
    linarith
  have hn1 : ¬ rowDist (ofList [DBL_MAX, 1, 0, DBL_MAX, 0, 0]) (ofList [-DBL_MAX, 0, 0]) 1 <
      DBL_MAX := by
    unfold rowDist
    rw [hp, hr1]
    exact not_lt.mpr hd1M
  have hn0 : ¬ rowDist (ofList [DBL_MAX, 1, 0, DBL_MAX, 0, 0]) (ofList [-DBL_MAX, 0, 0]) 0 <
      DBL_MAX := by
    unfold rowDist
    rw [hp, hr0]
    exact not_lt.mpr (le_trans hd1M hlt.le)
  refine ⟨?_, asDouble_of_not_lt hn0, asDouble_of_not_lt hn1⟩
  have h2 : deltaE_min_state (ofList [DBL_MAX, 1, 0, DBL_MAX, 0, 0])
      (ofList [-DBL_MAX, 0, 0]) 2 = (0, DBL_MAX) := by
    rw [deltaE_min_state_succ, deltaE_min_state_succ, deltaE_min_step_eq, deltaE_min_step_eq]
    have h00 : deltaE_min_state (ofList [DBL_MAX, 1, 0, DBL_MAX, 0, 0])
        (ofList [-DBL_MAX, 0, 0]) 0 = (0, DBL_MAX) := rfl
    rw [h00, if_neg hn0, if_neg hn1]
  show (deltaE_min_state _ _ (2 : ℤ).toNat).1 = 0
  rw [show (2 : ℤ).toNat = 2 from rfl, h2]

/-- C8 (achromatic pair): when `a = b = 0` for both colours, both hue angles are `0`,
`deltahPrime = 0`, `deltaCPrime = 0`, `deltaHPrime = 0`, and `CIEDE2000` is the lightness term
`|L2 - L1| / S_L` with `S_L = 1 + 0.015 (Lbar - 50)² / sqrt (20 + (Lbar - 50)²)` and
`Lbar = (L1 + L2) / 2`. -/
theorem CIEDE2000_achromatic_pair (c1 c2 : LAB) (h1a : c1.a = 0) (h1b : c1.b = 0)
    (h2a : c2.a = 0) (h2b : c2.b = 0) :
    hPrime1 c1 c2 = 0 ∧ hPrime2 c1 c2 = 0 ∧ deltahPrime c1 c2 = 0 ∧ deltaCPrime c1 c2 = 0 ∧
      deltaHPrime c1 c2 = 0 ∧
      CIEDE2000 c1 c2 =
        |c2.l - c1.l| /
          (1 + 0.015 * ((c1.l + c2.l) / 2 - 50) ^ 2 /
            Real.sqrt (20 + ((c1.l + c2.l) / 2 - 50) ^ 2)) := by
  have hC1 := CPrime1_achromatic c1 c2 h1a h1b
  have hC2 := CPrime2_achromatic c1 c2 h2a h2b
  have hP : CPrimeProduct c1 c2 = 0 := by
    unfold CPrimeProduct
    rw [hC1]
    simp
  refine ⟨?_, ?_, deltahPrime_of_product_zero c1 c2 hP, ?_,
    deltaHPrime_of_product_zero c1 c2 hP, ?_⟩
  · unfold hPrime1 a1Prime
    rw [h1a, h1b, mul_zero]
    exact hPrime_zero_zero
  · unfold hPrime2 a2Prime
    rw [h2a, h2b, mul_zero]
    exact hPrime_zero_zero
  · unfold deltaCPrime
    rw [hC1, hC2]
    simp
  · rw [CIEDE2000_achromatic c1 c2 h1a h1b h2a h2b]
    rfl

/-- Witness for C8 at `c1 = {50, 0, 0}`, `c2 = {60, 0, 0}`. -/
theorem CIEDE2000_achromatic_pair_witness :
    hPrime1 ⟨50, 0, 0⟩ ⟨60, 0, 0⟩ = 0 ∧ hPrime2 ⟨50, 0, 0⟩ ⟨60, 0, 0⟩ = 0 ∧
      deltahPrime ⟨50, 0, 0⟩ ⟨60, 0, 0⟩ = 0 ∧ deltaCPrime ⟨50, 0, 0⟩ ⟨60, 0, 0⟩ = 0 ∧
      deltaHPrime ⟨50, 0, 0⟩ ⟨60, 0, 0⟩ = 0 ∧
      CIEDE2000 ⟨50, 0, 0⟩ ⟨60, 0, 0⟩ =
        |(60 : ℝ) - 50| /
          (1 + 0.015 * (((50 : ℝ) + 60) / 2 - 50) ^ 2 /
            Real.sqrt (20 + (((50 : ℝ) + 60) / 2 - 50) ^ 2)) :=
  CIEDE2000_achromatic_pair ⟨50, 0, 0⟩ ⟨60, 0, 0⟩ rfl rfl rfl rfl

/-! ## Claim C9: interval helpers -/

theorem sqrt_mem_of_sq {x lo hi : ℝ} (hhi : 0 ≤ hi) (h1 : lo ^ 2 ≤ x) (h2 : x ≤ hi ^ 2) :
    lo ≤ Real.sqrt x ∧ Real.sqrt x ≤ hi :=
  ⟨Real.le_sqrt_of_sq_le h1, Real.sqrt_le_iff.mpr ⟨hhi, h2⟩⟩

theorem mul_mem_of_nonneg {x y xl xh yl yh : ℝ} (hx0 : 0 ≤ xl) (hxl : xl ≤ x) (hxh : x ≤ xh)
    (hy0 : 0 ≤ yl) (hyl : yl ≤ y) (hyh : y ≤ yh) : xl * yl ≤ x * y ∧ x * y ≤ xh * yh :=
  ⟨mul_le_mul hxl hyl hy0 (le_trans hx0 hxl),
    mul_le_mul hxh hyh (le_trans hy0 hyl) (le_trans hx0 (le_trans hxl hxh))⟩

theorem div_mem_of_pos {x y xl xh yl yh : ℝ} (hx0 : 0 ≤ xl) (hxl : xl ≤ x) (hxh : x ≤ xh)
    (hy0 : 0 < yl) (hyl : yl ≤ y) (hyh : y ≤ yh) : xl / yh ≤ x / y ∧ x / y ≤ xh / yl :=
  ⟨div_le_div₀ (le_trans hx0 hxl) hxl (lt_of_lt_of_le hy0 hyl) hyh,
    div_le_div₀ (le_trans hx0 (le_trans hxl hxh)) hxh hy0 hyl⟩

theorem ratio_mono {x y : ℝ} (hx : 0 ≤ x) (hxy : x ≤ y) :
    x ^ 7 / (x ^ 7 + pow25To7) ≤ y ^ 7 / (y ^ 7 + pow25To7) := by
  have hk := pow25To7_pos
  have h7 : x ^ 7 ≤ y ^ 7 := pow_le_pow_left₀ hx hxy 7
  have hx7 : 0 ≤ x ^ 7 := pow_nonneg hx 7
  rw [div_le_div_iff₀ (by linarith) (by linarith)]
  nlinarith

/-! ## Claim C9: Taylor enclosures of `sin`, `cos` and `exp` -/

theorem I_pow_table : Complex.I ^ 2 = -1 ∧ Complex.I ^ 3 = -Complex.I ∧ Complex.I ^ 4 = 1 ∧
    Complex.I ^ 5 = Complex.I ∧ Complex.I ^ 6 = -1 ∧ Complex.I ^ 7 = -Complex.I ∧
    Complex.I ^ 8 = 1 ∧ Complex.I ^ 9 = Complex.I := by
  have h2 : Complex.I ^ 2 = -1 := Complex.I_sq
  have h4 : Complex.I ^ 4 = 1 := by
    rw [show (4 : ℕ) = 2 * 2 from rfl, pow_mul, h2]
    norm_num
  refine ⟨h2, ?_, h4, ?_, ?_, ?_, ?_, ?_⟩
  · rw [pow_succ, h2]
    ring
  · rw [pow_succ, h4]
    ring
  · rw [show (6 : ℕ) = 4 + 2 from rfl, pow_add, h4, h2]
    ring
  · rw [show (7 : ℕ) = 4 + 2 + 1 from rfl, pow_add, pow_add, h4, h2]
    ring
  · rw [show (8 : ℕ) = 4 + 4 from rfl, pow_add, h4]
    ring
  · rw [show (9 : ℕ) = 4 + 4 + 1 from rfl, pow_add, pow_add, h4]
    ring

theorem exp_I_partial_sum (x : ℝ) :
    ∑ m ∈ Finset.range 10, ((x : ℂ) * Complex.I) ^ m / (m.factorial : ℂ) =
      ((cosPoly x : ℝ) : ℂ) + ((sinPoly x : ℝ) : ℂ) * Complex.I := by
  obtain ⟨h2, h3, h4, h5, h6, h7, h8, h9⟩ := I_pow_table
  unfold cosPoly sinPoly
  simp only [Finset.sum_range_succ, Finset.range_zero, Finset.sum_empty, mul_pow,
    Nat.factorial, h2, h3, h4, h5, h6,
    h7, h8, h9]
  push_cast
  ring

theorem exp_I_remainder {x : ℝ} (hx : |x| ≤ 1) :
    Complex.abs (Complex.exp (x * Complex.I) -
      (((cosPoly x : ℝ) : ℂ) + ((sinPoly x : ℝ) : ℂ) * Complex.I)) ≤
      |x| ^ 10 * (11 / 36288000) := by
  have hb := Complex.exp_bound (x := x * Complex.I) (by simpa using hx) (n := 10) (by norm_num)
  rw [exp_I_partial_sum] at hb
  refine le_trans hb (le_of_eq ?_)
  have : Complex.abs (x * Complex.I) = |x| := by simp
  rw [this]
  norm_num [Nat.factorial]

theorem cos_taylor {x : ℝ} (hx : |x| ≤ 1) :
    |Real.cos x - cosPoly x| ≤ |x| ^ 10 * (11 / 36288000) := by
  have hre : (Complex.exp (x * Complex.I) -
      (((cosPoly x : ℝ) : ℂ) + ((sinPoly x : ℝ) : ℂ) * Complex.I)).re =
      Real.cos x - cosPoly x := by
    rw [Complex.sub_re, Complex.exp_ofReal_mul_I_re, Complex.add_re, Complex.ofReal_re,
      Complex.re_ofReal_mul, Complex.I_re, mul_zero, add_zero]
  rw [← hre]
  exact le_trans (Complex.abs_re_le_abs _) (exp_I_remainder hx)

theorem sin_taylor {x : ℝ} (hx : |x| ≤ 1) :
    |Real.sin x - sinPoly x| ≤ |x| ^ 10 * (11 / 36288000) := by
  have him : (Complex.exp (x * Complex.I) -
      (((cosPoly x : ℝ) : ℂ) + ((sinPoly x : ℝ) : ℂ) * Complex.I)).im =
      Real.sin x - sinPoly x := by
    rw [Complex.sub_im, Complex.exp_ofReal_mul_I_im, Complex.add_im, Complex.ofReal_im,
      Complex.im_ofReal_mul, Complex.I_im, mul_one, zero_add]
  rw [← him]
  exact le_trans (Complex.abs_im_le_abs _) (exp_I_remainder hx)

theorem exp_taylor {x : ℝ} (hx : |x| ≤ 1) :
    |Real.exp x - expPoly x| ≤ |x| ^ 6 * (7 / 4320) := by
  have hb := Real.exp_bound hx (n := 6) (by norm_num)
  have hs : ∑ m ∈ Finset.range 6, x ^ m / (m.factorial : ℝ) = expPoly x := by
    unfold expPoly
    simp only [Finset.sum_range_succ, Finset.range_zero, Finset.sum_empty, Nat.factorial]
    push_cast
    ring
  rw [hs] at hb
  refine le_trans hb (le_of_eq ?_)
  norm_num [Nat.factorial]

/-- Enclosure of `sin x` for `x` in `[ql, qh] ⊆ [0, 1]`. -/
theorem sin_mem {x : ℝ} (ql qh : ℝ) (h0 : 0 ≤ ql) (hl : ql ≤ x) (hh : x ≤ qh) (h1 : qh ≤ 1) :
    sinPoly ql - ql ^ 10 * (11 / 36288000) ≤ Real.sin x ∧
      Real.sin x ≤ sinPoly qh + qh ^ 10 * (11 / 36288000) := by
  have hpi := Real.pi_gt_three
  have hqh0 : 0 ≤ qh := le_trans h0 (le_trans hl hh)
  have tl := sin_taylor (x := ql) (by rw [abs_of_nonneg h0]; linarith)
  have th := sin_taylor (x := qh) (by rw [abs_of_nonneg hqh0]; exact h1)
  rw [abs_of_nonneg h0] at tl
  rw [abs_of_nonneg hqh0] at th
  have ml : Real.sin ql ≤ Real.sin x :=
    Real.sin_le_sin_of_le_of_le_pi_div_two (by linarith) (by linarith) hl
  have mh : Real.sin x ≤ Real.sin qh :=
    Real.sin_le_sin_of_le_of_le_pi_div_two (by linarith) (by linarith) hh
  constructor
  · linarith [(abs_le.mp tl).1]
  · linarith [(abs_le.mp th).2]

/-- Enclosure of `cos x` for `x` in `[ql, qh] ⊆ [0, 1]`. -/
theorem cos_mem {x : ℝ} (ql qh : ℝ) (h0 : 0 ≤ ql) (hl : ql ≤ x) (hh : x ≤ qh) (h1 : qh ≤ 1) :
    cosPoly qh - qh ^ 10 * (11 / 36288000) ≤ Real.cos x ∧
      Real.cos x ≤ cosPoly ql + ql ^ 10 * (11 / 36288000) := by
  have hpi := Real.pi_gt_three
  have hqh0 : 0 ≤ qh := le_trans h0 (le_trans hl hh)
  have tl := cos_taylor (x := ql) (by rw [abs_of_nonneg h0]; linarith)
  have th := cos_taylor (x := qh) (by rw [abs_of_nonneg hqh0]; exact h1)
  rw [abs_of_nonneg h0] at tl
  rw [abs_of_nonneg hqh0] at th
  have ml : Real.cos x ≤ Real.cos ql :=
    Real.cos_le_cos_of_nonneg_of_le_pi h0 (by linarith) hl
  have mh : Real.cos qh ≤ Real.cos x :=
    Real.cos_le_cos_of_nonneg_of_le_pi (le_trans h0 hl) (by linarith) hh
  constructor
  · linarith [(abs_le.mp th).1]
  · linarith [(abs_le.mp tl).2]

/-- Enclosure of `exp (-w)` for `w` in `[wl, wh] ⊆ [0, 1]`. -/
theorem exp_neg_mem {w : ℝ} (wl wh : ℝ) (h0 : 0 ≤ wl) (hl : wl ≤ w) (hh : w ≤ wh) (h1 : wh ≤ 1) :
    expPoly (-wh) - wh ^ 6 * (7 / 4320) ≤ Real.exp (-w) ∧
      Real.exp (-w) ≤ expPoly (-wl) + wl ^ 6 * (7 / 4320) := by
  have hwh0 : 0 ≤ wh := le_trans h0 (le_trans hl hh)
  have tl := exp_taylor (x := -wl) (by rw [abs_neg, abs_of_nonneg h0]; linarith)
  have th := exp_taylor (x := -wh) (by rw [abs_neg, abs_of_nonneg hwh0]; exact h1)
  rw [abs_neg, abs_of_nonneg h0] at tl
  rw [abs_neg, abs_of_nonneg hwh0] at th
  have ml : Real.exp (-w) ≤ Real.exp (-wl) := Real.exp_le_exp.mpr (by linarith)
  have mh : Real.exp (-wh) ≤ Real.exp (-w) := Real.exp_le_exp.mpr (by linarith)
  constructor
  · linarith [(abs_le.mp th).1]
  · linarith [(abs_le.mp tl).2]

/-! ## Claim C9: the reference pair, step by step -/

theorem ref_C1 : 79.820009896 ≤ C1 refLab1 ∧ C1 refLab1 ≤ 79.820009897 := by
  unfold C1 refLab1
  apply sqrt_mem_of_sq <;> norm_num

theorem ref_C2 : C2 refLab2 = 82.7485 := by
  unfold C2 refLab2
  have : ((0 : ℝ) * 0 + -82.7485 * -82.7485) = 82.7485 * 82.7485 := by ring
  show Real.sqrt ((0 : ℝ) * 0 + -82.7485 * -82.7485) = 82.7485
  rw [this]
  exact Real.sqrt_mul_self (by norm_num)

theorem ref_barC :
    81.284254948 ≤ barC refLab1 refLab2 ∧ barC refLab1 refLab2 ≤ 81.2842549485 := by
  obtain ⟨h1, h2⟩ := ref_C1
  unfold barC
  rw [ref_C2]
  constructor <;> linarith

theorem ref_sqrt_ratio_barC :
    0.999869857 ≤ Real.sqrt (barC refLab1 refLab2 ^ 7 / (barC refLab1 refLab2 ^ 7 + pow25To7)) ∧
      Real.sqrt (barC refLab1 refLab2 ^ 7 / (barC refLab1 refLab2 ^ 7 + pow25To7)) ≤
        0.999869858 := by
  obtain ⟨h1, h2⟩ := ref_barC
  have hl := ratio_mono (x := 81.284254948) (by norm_num) h1
  have hh := ratio_mono (barC_nonneg refLab1 refLab2) h2
  apply sqrt_mem_of_sq (by norm_num)
  · refine le_trans ?_ hl
    unfold pow25To7
    rw [le_div_iff₀ (by norm_num)]
    norm_num
  · refine le_trans hh ?_
    unfold pow25To7
    rw [div_le_iff₀ (by norm_num)]
    norm_num

theorem ref_G : 0.000065071 ≤ G refLab1 refLab2 ∧ G refLab1 refLab2 ≤ 0.0000650715 := by
  obtain ⟨h1, h2⟩ := ref_sqrt_ratio_barC
  unfold G
  constructor <;> linarith

theorem ref_a1Prime :
    2.6773742080812 ≤ a1Prime refLab1 refLab2 ∧ a1Prime refLab1 refLab2 ≤ 2.6773742094198 := by
  obtain ⟨h1, h2⟩ := ref_G
  unfold a1Prime
  show _ ≤ (1 + G refLab1 refLab2) * 2.6772 ∧ (1 + G refLab1 refLab2) * 2.6772 ≤ _
  constructor <;> linarith

theorem ref_a2Prime : a2Prime refLab1 refLab2 = 0 := by
  unfold a2Prime
  show (1 + G refLab1 refLab2) * 0 = 0
  ring

theorem ref_CPrime1 :
    79.820015739 ≤ CPrime1 refLab1 refLab2 ∧ CPrime1 refLab1 refLab2 ≤ 79.82001574 := by
  obtain ⟨h1, h2⟩ := ref_a1Prime
  unfold CPrime1
  show _ ≤ Real.sqrt (a1Prime refLab1 refLab2 * a1Prime refLab1 refLab2 +
      -79.7751 * -79.7751) ∧
    Real.sqrt (a1Prime refLab1 refLab2 * a1Prime refLab1 refLab2 + -79.7751 * -79.7751) ≤ _
  have hsq := mul_mem_of_nonneg (by norm_num) h1 h2 (by norm_num) h1 h2
  apply sqrt_mem_of_sq (by norm_num)
  · refine le_trans ?_ (add_le_add_right hsq.1 _)
    norm_num
  · refine le_trans (add_le_add_right hsq.2 _) ?_
    norm_num

theorem ref_CPrime2 : CPrime2 refLab1 refLab2 = 82.7485 := by
  unfold CPrime2
  rw [ref_a2Prime]
  have : ((0 : ℝ) * 0 + -82.7485 * -82.7485) = 82.7485 * 82.7485 := by ring
  show Real.sqrt ((0 : ℝ) * 0 + -82.7485 * -82.7485) = 82.7485
  rw [this]
  exact Real.sqrt_mul_self (by norm_num)

theorem ref_hPrime2 : hPrime2 refLab1 refLab2 = 3 * Real.pi / 2 := by
  have hpi := Real.pi_pos
  unfold hPrime2 hPrime
  rw [ref_a2Prime, deg360InRad_eq]
  have hb : refLab2.b = -82.7485 := rfl
  have hne : ¬ (refLab2.b = 0 ∧ (0 : ℝ) = 0) := by
    rw [hb]
    norm_num
  have hat : atan2 refLab2.b 0 = -(Real.pi / 2) := by
    unfold atan2
    rw [Complex.arg_eq_neg_pi_div_two_iff, hb]
    exact ⟨rfl, by norm_num⟩
  rw [if_neg hne]
  show (if atan2 refLab2.b 0 < 0 then atan2 refLab2.b 0 + 2 * Real.pi else atan2 refLab2.b 0) =
    3 * Real.pi / 2
  rw [hat, if_pos (by linarith)]
  ring

/-- The hue angle of the first colour exceeds `3π/2` by an angle `δ` in `(0, π/2)` whose sine
is `a1Prime / CPrime1`. -/
theorem ref_hPrime1 :
    0 < hPrime1 refLab1 refLab2 - 3 * Real.pi / 2 ∧
      hPrime1 refLab1 refLab2 - 3 * Real.pi / 2 < Real.pi / 2 ∧
      Real.sin (hPrime1 refLab1 refLab2 - 3 * Real.pi / 2) =
        a1Prime refLab1 refLab2 / CPrime1 refLab1 refLab2 := by
  have hpi := Real.pi_pos
  obtain ⟨ha, _⟩ := ref_a1Prime
  have hapos : 0 < a1Prime refLab1 refLab2 := by linarith
  have hb : refLab1.b = -79.7751 := rfl
  have hne : ¬ (refLab1.b = 0 ∧ a1Prime refLab1 refLab2 = 0) := by
    intro h
    linarith [h.2]
  have hneg : Complex.arg ⟨a1Prime refLab1 refLab2, refLab1.b⟩ < 0 := by
    rw [Complex.arg_neg_iff, hb]
    norm_num
  have hgt : -(Real.pi / 2) < Complex.arg ⟨a1Prime refLab1 refLab2, refLab1.b⟩ := by
    rw [Complex.neg_pi_div_two_lt_arg_iff]
    exact Or.inl hapos
  have hz : (⟨a1Prime refLab1 refLab2, refLab1.b⟩ : ℂ) ≠ 0 := by
    intro h
    have := congrArg Complex.re h
    simp at this
    linarith
  have habs : Complex.abs ⟨a1Prime refLab1 refLab2, refLab1.b⟩ = CPrime1 refLab1 refLab2 := by
    rw [Complex.abs_apply, Complex.normSq_apply]
    rfl
  have hh : hPrime1 refLab1 refLab2 =
      Complex.arg ⟨a1Prime refLab1 refLab2, refLab1.b⟩ + 2 * Real.pi := by
    unfold hPrime1 hPrime
    rw [if_neg hne, deg360InRad_eq]
    show (if atan2 refLab1.b (a1Prime refLab1 refLab2) < 0
      then atan2 refLab1.b (a1Prime refLab1 refLab2) + 2 * Real.pi
      else atan2 refLab1.b (a1Prime refLab1 refLab2)) = _
    unfold atan2
    rw [if_pos hneg]
  refine ⟨by rw [hh]; linarith, by rw [hh]; linarith, ?_⟩
  have he : hPrime1 refLab1 refLab2 - 3 * Real.pi / 2 =
      Complex.arg ⟨a1Prime refLab1 refLab2, refLab1.b⟩ + Real.pi / 2 := by
    rw [hh]
    ring
  rw [he, Real.sin_add_pi_div_two, Complex.cos_arg hz, habs]

theorem ref_sin_delta :
    0.03354264194 ≤ a1Prime refLab1 refLab2 / CPrime1 refLab1 refLab2 ∧
      a1Prime refLab1 refLab2 / CPrime1 refLab1 refLab2 ≤ 0.03354264197 := by
  obtain ⟨h1, h2⟩ := ref_a1Prime
  obtain ⟨h3, h4⟩ := ref_CPrime1
  obtain ⟨h5, h6⟩ := div_mem_of_pos (by norm_num) h1 h2 (by norm_num) h3 h4
  constructor
  · refine le_trans ?_ h5
    norm_num
  · refine le_trans h6 ?_
    norm_num

theorem ref_delta :
    0.0335489339 ≤ hPrime1 refLab1 refLab2 - 3 * Real.pi / 2 ∧
      hPrime1 refLab1 refLab2 - 3 * Real.pi / 2 ≤ 0.0335489361 := by
  have hpi := Real.pi_gt_three
  obtain ⟨h0, h1, hs⟩ := ref_hPrime1
  obtain ⟨hsl, hsh⟩ := ref_sin_delta
  rw [← hs] at hsl hsh
  constructor
  · by_contra hlt
    push_neg at hlt
    have hmono := Real.sin_lt_sin_of_lt_of_le_pi_div_two (by linarith) (by linarith) hlt
    have hb := (sin_mem (x := 0.0335489339) 0.0335489339 0.0335489339
      (by norm_num) le_rfl le_rfl (by norm_num)).2
    have hn : sinPoly 0.0335489339 + 0.0335489339 ^ 10 * (11 / 36288000) ≤
        (0.03354264194 : ℝ) := by
      unfold sinPoly
      norm_num
    linarith
  · by_contra hlt
    push_neg at hlt
    have hmono := Real.sin_lt_sin_of_lt_of_le_pi_div_two (by linarith) (by linarith) hlt
    have hb := (sin_mem (x := 0.0335489361) 0.0335489361 0.0335489361
      (by norm_num) le_rfl le_rfl (by norm_num)).1
    have hn : (0.03354264197 : ℝ) ≤
        sinPoly 0.0335489361 - 0.0335489361 ^ 10 * (11 / 36288000) := by
      unfold sinPoly
      norm_num
    linarith

theorem pi_bounds : 3.14159265358979323846 < Real.pi ∧ Real.pi < 3.14159265358979323847 :=
  ⟨Real.pi_gt_d20, Real.pi_lt_d20⟩

theorem ref_refDelta : 0.0335489339 ≤ refDelta ∧ refDelta ≤ 0.0335489361 := ref_delta

theorem ref_CPrimeProduct_pos : 0 < CPrimeProduct refLab1 refLab2 := by
  obtain ⟨h1, _⟩ := ref_CPrime1
  unfold CPrimeProduct
  rw [ref_CPrime2]
  exact mul_pos (by linarith) (by norm_num)

theorem ref_deltahPrime : deltahPrime refLab1 refLab2 = -refDelta := by
  have hpi := Real.pi_pos
  obtain ⟨h0, h1, _⟩ := ref_hPrime1
  have hd : hPrime2 refLab1 refLab2 - hPrime1 refLab1 refLab2 = -refDelta := by
    unfold refDelta
    rw [ref_hPrime2]
    ring
  unfold deltahPrime
  rw [if_neg ref_CPrimeProduct_pos.ne.symm, deg180InRad_eq]
  show (if hPrime2 refLab1 refLab2 - hPrime1 refLab1 refLab2 < -Real.pi
    then hPrime2 refLab1 refLab2 - hPrime1 refLab1 refLab2 + deg360InRad
    else if hPrime2 refLab1 refLab2 - hPrime1 refLab1 refLab2 > Real.pi
      then hPrime2 refLab1 refLab2 - hPrime1 refLab1 refLab2 - deg360InRad
      else hPrime2 refLab1 refLab2 - hPrime1 refLab1 refLab2) = -refDelta
  have hr : 0 < refDelta ∧ refDelta < Real.pi / 2 := ⟨h0, h1⟩
  rw [hd, if_neg (by linarith [hr.1, hr.2]), if_neg (by linarith [hr.1, hr.2])]

theorem ref_barhPrime : barhPrime refLab1 refLab2 = 3 * Real.pi / 2 + refDelta / 2 := by
  have hpi := Real.pi_pos
  obtain ⟨h0, h1, _⟩ := ref_hPrime1
  have hr : 0 < refDelta ∧ refDelta < Real.pi / 2 := ⟨h0, h1⟩
  have hd : hPrime1 refLab1 refLab2 - hPrime2 refLab1 refLab2 = refDelta := by
    unfold refDelta
    rw [ref_hPrime2]
  have hs : hPrimeSum refLab1 refLab2 = 3 * Real.pi + refDelta := by
    unfold hPrimeSum refDelta
    rw [ref_hPrime2]
    ring
  have hP : ¬ CPrime1 refLab1 refLab2 * CPrime2 refLab1 refLab2 = 0 :=
    ref_CPrimeProduct_pos.ne.symm
  unfold barhPrime
  rw [if_neg hP, hd, deg180InRad_eq, abs_of_pos hr.1, if_pos (by linarith [hr.2]), hs]
  ring

theorem ref_sqrt_CPrimeProduct :
    81.271068483 ≤ Real.sqrt (CPrimeProduct refLab1 refLab2) ∧
      Real.sqrt (CPrimeProduct refLab1 refLab2) ≤ 81.271068484 := by
  obtain ⟨h1, h2⟩ := ref_CPrime1
  unfold CPrimeProduct
  rw [ref_CPrime2]
  apply sqrt_mem_of_sq (by norm_num)
  · calc (81.271068483 : ℝ) ^ 2 ≤ 79.820015739 * 82.7485 := by norm_num
      _ ≤ CPrime1 refLab1 refLab2 * 82.7485 := by linarith
  · calc CPrime1 refLab1 refLab2 * 82.7485 ≤ 79.82001574 * 82.7485 := by linarith
      _ ≤ (81.271068484 : ℝ) ^ 2 := by norm_num

theorem ref_sin_half_delta :
    0.0167736802 ≤ Real.sin (refDelta / 2) ∧ Real.sin (refDelta / 2) ≤ 0.0167736814 := by
  obtain ⟨h1, h2⟩ := ref_refDelta
  obtain ⟨h3, h4⟩ := sin_mem (x := refDelta / 2) 0.01677446695 0.01677446805
    (by norm_num) (by linarith) (by linarith) (by norm_num)
  constructor
  · refine le_trans ?_ h3
    unfold sinPoly
    norm_num
  · refine le_trans h4 ?_
    unfold sinPoly
    norm_num

theorem ref_deltaHPrime :
    2.726429824 ≤ -deltaHPrime refLab1 refLab2 ∧ -deltaHPrime refLab1 refLab2 ≤ 2.72643002 := by
  obtain ⟨h1, h2⟩ := ref_sqrt_CPrimeProduct
  obtain ⟨h3, h4⟩ := ref_sin_half_delta
  have he : -deltaHPrime refLab1 refLab2 =
      2 * (Real.sqrt (CPrimeProduct refLab1 refLab2) * Real.sin (refDelta / 2)) := by
    unfold deltaHPrime
    rw [ref_deltahPrime, neg_div, Real.sin_neg]
    ring
  obtain ⟨h5, h6⟩ := mul_mem_of_nonneg (by norm_num) h1 h2 (by norm_num) h3 h4
  rw [he]
  constructor
  · calc (2.726429824 : ℝ) ≤ 2 * (81.271068483 * 0.0167736802) := by norm_num
      _ ≤ _ := by linarith
  · calc 2 * (Real.sqrt (CPrimeProduct refLab1 refLab2) * Real.sin (refDelta / 2))
        ≤ 2 * (81.271068484 * 0.0167736814) := by linarith
      _ ≤ 2.72643002 := by norm_num

theorem ref_barCPrime :
    81.2842578695 ≤ barCPrime refLab1 refLab2 ∧ barCPrime refLab1 refLab2 ≤ 81.28425787 := by
  obtain ⟨h1, h2⟩ := ref_CPrime1
  unfold barCPrime
  rw [ref_CPrime2]
  constructor <;> linarith

theorem ref_S_C :
    4.6577916041275 ≤ S_C refLab1 refLab2 ∧ S_C refLab1 refLab2 ≤ 4.65779160415 := by
  obtain ⟨h1, h2⟩ := ref_barCPrime
  unfold S_C
  constructor <;> linarith

theorem ref_deltaCPrime :
    2.92848426 ≤ deltaCPrime refLab1 refLab2 ∧ deltaCPrime refLab1 refLab2 ≤ 2.928484261 := by
  obtain ⟨h1, h2⟩ := ref_CPrime1
  unfold deltaCPrime
  rw [ref_CPrime2]
  constructor <;> linarith

theorem ref_chroma_term :
    0.628728055 ≤ deltaCPrime refLab1 refLab2 / S_C refLab1 refLab2 ∧
      deltaCPrime refLab1 refLab2 / S_C refLab1 refLab2 ≤ 0.628728057 := by
  obtain ⟨h1, h2⟩ := ref_deltaCPrime
  obtain ⟨h3, h4⟩ := ref_S_C
  obtain ⟨h5, h6⟩ := div_mem_of_pos (by norm_num) h1 h2 (by norm_num) h3 h4
  constructor
  · refine le_trans ?_ h5
    norm_num
  · refine le_trans h6 ?_
    norm_num

/-- With the mean hue written as `3π/2 + δ/2`, the four cosines of Equation 15 reduce to
sines and cosines of small angles. -/
theorem T_of_barhPrime (lab1 lab2 : LAB) (δ : ℝ)
    (h : barhPrime lab1 lab2 = 3 * Real.pi / 2 + δ / 2) :
    T lab1 lab2 = 1 + 0.17 * Real.sin (Real.pi / 6 - δ / 2) - 0.24 * Real.cos δ -
      0.32 * Real.sin (3 * δ / 2 + Real.pi / 30) - 0.20 * Real.sin (3 * Real.pi / 20 + 2 * δ) := by
  have e1 : Real.cos (3 * Real.pi / 2 + δ / 2 - 30 * (Real.pi / 180)) =
      -Real.sin (Real.pi / 6 - δ / 2) := by
    rw [show 3 * Real.pi / 2 + δ / 2 - 30 * (Real.pi / 180) =
      Real.pi / 2 - (Real.pi / 6 - δ / 2) + Real.pi by ring, Real.cos_add_pi,
      Real.cos_pi_div_two_sub]
  have e2 : Real.cos (2 * (3 * Real.pi / 2 + δ / 2)) = -Real.cos δ := by
    rw [show 2 * (3 * Real.pi / 2 + δ / 2) = δ + Real.pi + 2 * Real.pi by ring,
      Real.cos_add_two_pi, Real.cos_add_pi]
  have e3 : Real.cos (3 * (3 * Real.pi / 2 + δ / 2) + 6 * (Real.pi / 180)) =
      -Real.sin (3 * δ / 2 + Real.pi / 30) := by
    rw [show 3 * (3 * Real.pi / 2 + δ / 2) + 6 * (Real.pi / 180) =
      3 * δ / 2 + Real.pi / 30 + Real.pi / 2 + ((2 : ℕ) : ℝ) * (2 * Real.pi) by
        push_cast
        ring,
      Real.cos_add_nat_mul_two_pi, Real.cos_add_pi_div_two]
  have e4 : Real.cos (4 * (3 * Real.pi / 2 + δ / 2) - 63 * (Real.pi / 180)) =
      Real.sin (3 * Real.pi / 20 + 2 * δ) := by
    rw [show 4 * (3 * Real.pi / 2 + δ / 2) - 63 * (Real.pi / 180) =
      -(Real.pi / 2 - (3 * Real.pi / 20 + 2 * δ)) + ((3 : ℕ) : ℝ) * (2 * Real.pi) by
        push_cast
        ring,
      Real.cos_add_nat_mul_two_pi, Real.cos_neg, Real.cos_pi_div_two_sub]
  unfold T deg2Rad PI
  rw [h, e1, e2, e3, e4]
  ring

theorem ref_T : 0.690696577 ≤ T refLab1 refLab2 ∧ T refLab1 refLab2 ≤ 0.690696582 := by
  obtain ⟨hd1, hd2⟩ := ref_refDelta
  obtain ⟨hp1, hp2⟩ := pi_bounds
  obtain ⟨a1, a2⟩ := sin_mem (x := Real.pi / 6 - refDelta / 2) 0.506824307548 0.506824308649
    (by norm_num) (by linarith) (by linarith) (by norm_num)
  obtain ⟨b1, b2⟩ := cos_mem (x := refDelta) 0.0335489339 0.0335489361
    (by norm_num) hd1 hd2 (by norm_num)
  obtain ⟨c1, c2⟩ := sin_mem (x := 3 * refDelta / 2 + Real.pi / 30) 0.155043155969
    0.15504315927 (by norm_num) (by linarith) (by linarith) (by norm_num)
  obtain ⟨d1, d2⟩ := sin_mem (x := 3 * Real.pi / 20 + 2 * refDelta) 0.538336765838
    0.538336770239 (by norm_num) (by linarith) (by linarith) (by norm_num)
  have a1n :
      (0.485403221 : ℝ) ≤ sinPoly 0.506824307548 - 0.506824307548 ^ 10 * (11 / 36288000) := by
    unfold sinPoly
    norm_num
  have a2n :
      sinPoly 0.506824308649 + 0.506824308649 ^ 10 * (11 / 36288000) ≤ (0.485403224 : ℝ) := by
    unfold sinPoly
    norm_num
  have b1n :
      (0.999437287 : ℝ) ≤ cosPoly 0.0335489361 - 0.0335489361 ^ 10 * (11 / 36288000) := by
    unfold cosPoly
    norm_num
  have b2n :
      cosPoly 0.0335489339 + 0.0335489339 ^ 10 * (11 / 36288000) ≤ (0.999437288 : ℝ) := by
    unfold cosPoly
    norm_num
  have c1n :
      (0.154422737 : ℝ) ≤ sinPoly 0.155043155969 - 0.155043155969 ^ 10 * (11 / 36288000) := by
    unfold sinPoly
    norm_num
  have c2n :
      sinPoly 0.15504315927 + 0.15504315927 ^ 10 * (11 / 36288000) ≤ (0.154422742 : ℝ) := by
    unfold sinPoly
    norm_num
  have d1n :
      (0.51270871 : ℝ) ≤ sinPoly 0.538336765838 - 0.538336765838 ^ 10 * (11 / 36288000) := by
    unfold sinPoly
    norm_num
  have d2n :
      sinPoly 0.538336770239 + 0.538336770239 ^ 10 * (11 / 36288000) ≤ (0.512708716 : ℝ) := by
    unfold sinPoly
    norm_num
  rw [T_of_barhPrime refLab1 refLab2 refDelta ref_barhPrime]
  constructor <;> linarith

theorem ref_S_H : 1.84214138 ≤ S_H refLab1 refLab2 ∧ S_H refLab1 refLab2 ≤ 1.842141387 := by
  obtain ⟨h1, h2⟩ := ref_barCPrime
  obtain ⟨h3, h4⟩ := ref_T
  obtain ⟨h5, h6⟩ := mul_mem_of_nonneg (by norm_num) h1 h2 (by norm_num) h3 h4
  have he : S_H refLab1 refLab2 = 1 + 0.015 * (barCPrime refLab1 refLab2 * T refLab1 refLab2) := by
    unfold S_H
    ring
  rw [he]
  constructor
  · calc (1.84214138 : ℝ) ≤ 1 + 0.015 * (81.2842578695 * 0.690696577) := by norm_num
      _ ≤ _ := by linarith
  · calc 1 + 0.015 * (barCPrime refLab1 refLab2 * T refLab1 refLab2)
        ≤ 1 + 0.015 * (81.28425787 * 0.690696582) := by linarith
      _ ≤ 1.842141387 := by norm_num

theorem ref_hue_term :
    1.48003288 ≤ -deltaHPrime refLab1 refLab2 / S_H refLab1 refLab2 ∧
      -deltaHPrime refLab1 refLab2 / S_H refLab1 refLab2 ≤ 1.480032993 := by
  obtain ⟨h1, h2⟩ := ref_deltaHPrime
  obtain ⟨h3, h4⟩ := ref_S_H
  obtain ⟨h5, h6⟩ := div_mem_of_pos (by norm_num) h1 h2 (by norm_num) h3 h4
  constructor
  · refine le_trans ?_ h5
    norm_num
  · refine le_trans h6 ?_
    norm_num

theorem ref_rotation_arg :
    (barhPrime refLab1 refLab2 - deg2Rad 275) / deg2Rad 25 =
      -(1 / 5 - 18 * refDelta / (5 * Real.pi)) := by
  have hpi := Real.pi_pos
  unfold deg2Rad PI
  rw [ref_barhPrime]
  field_simp
  ring

theorem ref_rotation_arg_sq :
    0.0261002606 ≤ ((barhPrime refLab1 refLab2 - deg2Rad 275) / deg2Rad 25) ^ 2 ∧
      ((barhPrime refLab1 refLab2 - deg2Rad 275) / deg2Rad 25) ^ 2 ≤ 0.0261002616 := by
  obtain ⟨hd1, hd2⟩ := ref_refDelta
  obtain ⟨hp1, hp2⟩ := pi_bounds
  obtain ⟨h1, h2⟩ := div_mem_of_pos (x := 18 * refDelta) (y := 5 * Real.pi)
    (by norm_num : (0 : ℝ) ≤ 18 * 0.0335489339) (by linarith)
    (by linarith : 18 * refDelta ≤ 18 * 0.0335489361)
    (by norm_num : (0 : ℝ) < 5 * 3.14159265358979323846) (by linarith)
    (by linarith : 5 * Real.pi ≤ 5 * 3.14159265358979323847)
  have hl : (0.161555751 : ℝ) ≤ 1 / 5 - 18 * refDelta / (5 * Real.pi) := by
    have : 18 * 0.0335489361 / (5 * 3.14159265358979323846) ≤ (1 / 5 - 0.161555751 : ℝ) := by
      norm_num
    linarith
  have hh : 1 / 5 - 18 * refDelta / (5 * Real.pi) ≤ (0.1615557537 : ℝ) := by
    have : (1 / 5 - 0.1615557537 : ℝ) ≤ 18 * 0.0335489339 / (5 * 3.14159265358979323847) := by
      norm_num
    linarith
  rw [ref_rotation_arg, neg_sq]
  obtain ⟨h3, h4⟩ := mul_mem_of_nonneg (by norm_num) hl hh (by norm_num) hl hh
  rw [sq]
  constructor
  · refine le_trans ?_ h3
    norm_num
  · refine le_trans h4 ?_
    norm_num

theorem ref_deltaTheta :
    0.510109512 ≤ deltaTheta refLab1 refLab2 ∧ deltaTheta refLab1 refLab2 ≤ 0.510109514 := by
  obtain ⟨hp1, hp2⟩ := pi_bounds
  obtain ⟨hw1, hw2⟩ := ref_rotation_arg_sq
  obtain ⟨he1, he2⟩ := exp_neg_mem 0.0261002606 0.0261002616 (by norm_num) hw1 hw2
    (by norm_num)
  have hl : (0.974237406 : ℝ) ≤
      Real.exp (-((barhPrime refLab1 refLab2 - deg2Rad 275) / deg2Rad 25) ^ 2) := by
    refine le_trans ?_ he1
    unfold expPoly
    norm_num
  have hh : Real.exp (-((barhPrime refLab1 refLab2 - deg2Rad 275) / deg2Rad 25) ^ 2) ≤
      (0.974237408 : ℝ) := by
    refine le_trans he2 ?_
    unfold expPoly
    norm_num
  have h30 : deg2Rad 30 = Real.pi / 6 := by
    unfold deg2Rad PI
    ring
  obtain ⟨h1, h2⟩ := mul_mem_of_nonneg (x := Real.pi / 6)
    (by norm_num : (0 : ℝ) ≤ 3.14159265358979323846 / 6) (by linarith)
    (by linarith : Real.pi / 6 ≤ 3.14159265358979323847 / 6) (by norm_num) hl hh
  unfold deltaTheta
  rw [h30]
  constructor
  · refine le_trans ?_ h1
    norm_num
  · refine le_trans h2 ?_
    norm_num

theorem ref_sin_two_deltaTheta :
    0.852222631 ≤ Real.sin (2 * deltaTheta refLab1 refLab2) ∧
      Real.sin (2 * deltaTheta refLab1 refLab2) ≤ 0.852222635 := by
  obtain ⟨hp1, hp2⟩ := pi_bounds
  obtain ⟨ht1, ht2⟩ := ref_deltaTheta
  obtain ⟨h1, h2⟩ := cos_mem (x := Real.pi / 2 - 2 * deltaTheta refLab1 refLab2) 0.5505772987
    0.5505773028 (by norm_num) (by linarith) (by linarith) (by norm_num)
  rw [Real.cos_pi_div_two_sub] at h1 h2
  constructor
  · refine le_trans ?_ h1
    unfold cosPoly
    norm_num
  · refine le_trans h2 ?_
    unfold cosPoly
    norm_num

theorem ref_R_C : 1.999739714 ≤ R_C refLab1 refLab2 ∧ R_C refLab1 refLab2 ≤ 1.999739716 := by
  obtain ⟨h1, h2⟩ := ref_barCPrime
  have hl := ratio_mono (x := 81.2842578695) (by norm_num) h1
  have hh := ratio_mono (barCPrime_nonneg refLab1 refLab2) h2
  have hs : 0.999869857 ≤ Real.sqrt (barCPrime refLab1 refLab2 ^ 7 /
        (barCPrime refLab1 refLab2 ^ 7 + pow25To7)) ∧
      Real.sqrt (barCPrime refLab1 refLab2 ^ 7 /
        (barCPrime refLab1 refLab2 ^ 7 + pow25To7)) ≤ 0.999869858 := by
    apply sqrt_mem_of_sq (by norm_num)
    · refine le_trans ?_ hl
      unfold pow25To7
      rw [le_div_iff₀ (by norm_num)]
      norm_num
    · refine le_trans hh ?_
      unfold pow25To7
      rw [div_le_iff₀ (by norm_num)]
      norm_num
  unfold R_C
  constructor <;> linarith [hs.1, hs.2]

theorem ref_R_T : 1.70422344 ≤ -R_T refLab1 refLab2 ∧ -R_T refLab1 refLab2 ≤ 1.704223451 := by
  obtain ⟨h1, h2⟩ := ref_sin_two_deltaTheta
  obtain ⟨h3, h4⟩ := ref_R_C
  obtain ⟨h5, h6⟩ := mul_mem_of_nonneg (by norm_num) h1 h2 (by norm_num) h3 h4
  have he : -R_T refLab1 refLab2 =
      Real.sin (2 * deltaTheta refLab1 refLab2) * R_C refLab1 refLab2 := by
    unfold R_T
    ring
  rw [he]
  constructor
  · refine le_trans ?_ h5
    norm_num
  · refine le_trans h6 ?_
    norm_num

theorem ref_deltaLPrime : deltaLPrime refLab1 refLab2 = 0 := by
  unfold deltaLPrime
  show (50 : ℝ) - 50 = 0
  norm_num

/-- For the reference pair Equation 22 is a sum of three positive terms. -/
theorem ref_radicand_eq :
    radicand refLab1 refLab2 =
      (deltaCPrime refLab1 refLab2 / S_C refLab1 refLab2) ^ 2 +
        (-deltaHPrime refLab1 refLab2 / S_H refLab1 refLab2) ^ 2 +
        -R_T refLab1 refLab2 * (deltaCPrime refLab1 refLab2 / S_C refLab1 refLab2) *
          (-deltaHPrime refLab1 refLab2 / S_H refLab1 refLab2) := by
  unfold radicand k_L k_C k_H
  rw [ref_deltaLPrime]
  ring

theorem ref_radicand :
    4.171641295 ≤ radicand refLab1 refLab2 ∧ radicand refLab1 refLab2 ≤ 4.171641769 := by
  obtain ⟨hB1, hB2⟩ := ref_chroma_term
  obtain ⟨hC1, hC2⟩ := ref_hue_term
  obtain ⟨hR1, hR2⟩ := ref_R_T
  obtain ⟨b1, b2⟩ := mul_mem_of_nonneg (by norm_num) hB1 hB2 (by norm_num) hB1 hB2
  obtain ⟨c1, c2⟩ := mul_mem_of_nonneg (by norm_num) hC1 hC2 (by norm_num) hC1 hC2
  obtain ⟨r1, r2⟩ := mul_mem_of_nonneg (by norm_num) hR1 hR2 (by norm_num) hB1 hB2
  obtain ⟨s1, s2⟩ := mul_mem_of_nonneg (by norm_num) r1 r2 (by norm_num) hC1 hC2
  rw [ref_radicand_eq, sq, sq]
  constructor
  · calc (4.171641295 : ℝ) ≤ 0.628728055 * 0.628728055 + 1.48003288 * 1.48003288 +
          1.70422344 * 0.628728055 * 1.48003288 := by norm_num
      _ ≤ _ := by linarith
  · calc _ ≤ (0.628728057 : ℝ) * 0.628728057 + 1.480032993 * 1.480032993 +
          1.704223451 * 0.628728057 * 1.480032993 := by linarith
      _ ≤ 4.171641769 := by norm_num

theorem ref_CIEDE2000 :
    2.0424596 ≤ CIEDE2000 refLab1 refLab2 ∧ CIEDE2000 refLab1 refLab2 ≤ 2.0424598 := by
  obtain ⟨h1, h2⟩ := ref_radicand
  unfold CIEDE2000
  apply sqrt_mem_of_sq (by norm_num)
  · refine le_trans ?_ h1
    norm_num
  · refine le_trans h2 ?_
    norm_num

/-- C9 (reference vector): `CIEDE2000 {50, 2.6772, -79.7751} {50, 0, -82.7485}` agrees with
`2.0425` to four decimal places: its value `v` satisfies `|v - 2.0425| < 0.00005`. -/
theorem CIEDE2000_reference_vector :
    |CIEDE2000 ⟨50, 2.6772, -79.7751⟩ ⟨50, 0, -82.7485⟩ - 2.0425| < 0.00005 := by
  obtain ⟨h1, h2⟩ := ref_CIEDE2000
  rw [abs_lt]
  constructor
  · have : (-0.00005 : ℝ) < 2.0424596 - 2.0425 := by norm_num
    exact lt_of_lt_of_le this (sub_le_sub_right h1 _)
  · have : (2.0424598 : ℝ) - 2.0425 < 0.00005 := by norm_num
    exact lt_of_le_of_lt (sub_le_sub_right h2 _) this

/-! ## Claim C10 -/

/-- C10 (hue-difference range), as the code behaves: when both adjusted chromas are non-zero
(`CPrime1 * CPrime2 ≠ 0`), the wrapped hue difference `deltahPrime` lies in the closed
interval `[-π, π]`; it equals `-π` exactly when the raw difference `hPrime2 - hPrime1` is
`-π`, which the strict test `< -deg180InRad` leaves unwrapped. -/
theorem deltahPrime_mem_closed_interval (lab1 lab2 : LAB)
    (hP : CPrime1 lab1 lab2 * CPrime2 lab1 lab2 ≠ 0) :
    -Real.pi ≤ deltahPrime lab1 lab2 ∧ deltahPrime lab1 lab2 ≤ Real.pi ∧
      (deltahPrime lab1 lab2 = -Real.pi ↔
        hPrime2 lab1 lab2 - hPrime1 lab1 lab2 = -Real.pi) :=
  deltahPrime_range lab1 lab2 hP

/-- Witness for C10 at `{50, -1, 0}`, `{50, 1, 0}`. -/
theorem deltahPrime_mem_closed_interval_witness :
    CPrime1 ⟨50, -1, 0⟩ ⟨50, 1, 0⟩ * CPrime2 ⟨50, -1, 0⟩ ⟨50, 1, 0⟩ ≠ 0 ∧
      -Real.pi ≤ deltahPrime ⟨50, -1, 0⟩ ⟨50, 1, 0⟩ ∧
      deltahPrime ⟨50, -1, 0⟩ ⟨50, 1, 0⟩ ≤ Real.pi ∧
      (deltahPrime ⟨50, -1, 0⟩ ⟨50, 1, 0⟩ = -Real.pi ↔
        hPrime2 ⟨50, -1, 0⟩ ⟨50, 1, 0⟩ - hPrime1 ⟨50, -1, 0⟩ ⟨50, 1, 0⟩ = -Real.pi) :=
  ⟨opposite_hues.1, deltahPrime_mem_closed_interval _ _ opposite_hues.1⟩

/-- Counterexample to C10: for `{50, -1, 0}` and `{50, 1, 0}` both adjusted chromas are
non-zero, the hue angles are `π` and `0`, and `deltahPrime` is exactly `-π`. -/
theorem deltahPrime_eq_neg_pi :
    CPrime1 ⟨50, -1, 0⟩ ⟨50, 1, 0⟩ * CPrime2 ⟨50, -1, 0⟩ ⟨50, 1, 0⟩ ≠ 0 ∧
      deltahPrime ⟨50, -1, 0⟩ ⟨50, 1, 0⟩ = -Real.pi ∧
      ¬ (-Real.pi < deltahPrime ⟨50, -1, 0⟩ ⟨50, 1, 0⟩ ∧
        deltahPrime ⟨50, -1, 0⟩ ⟨50, 1, 0⟩ ≤ Real.pi) := by
  obtain ⟨hP, h1, h2⟩ := opposite_hues
  have hd : deltahPrime ⟨50, -1, 0⟩ ⟨50, 1, 0⟩ = -Real.pi := by
    rw [(deltahPrime_range _ _ hP).2.2, h1, h2]
    ring
  refine ⟨hP, hd, ?_⟩
  rw [hd]
  intro h
  exact lt_irrefl _ h.1

/-! ## Claim C11 -/

theorem hPrime_eq (b aPrime : ℝ) :
    (b = 0 ∧ aPrime = 0 → hPrime b aPrime = 0) ∧
      (¬ (b = 0 ∧ aPrime = 0) →
        hPrime b aPrime =
          if atan2 b aPrime < 0 then atan2 b aPrime + 2 * Real.pi else atan2 b aPrime) := by
  unfold hPrime
  rw [deg360InRad_eq]
  constructor
  · intro h
    rw [if_pos h]
  · intro h
    rw [if_neg h]

/-- C11 (hue-angle range): for each of the two colours the hue angle computed inside
`CIEDE2000` lies in `[0, 2π)`; it is exactly `0` when `b = 0` and `aPrime = 0`, and otherwise
it is `atan2 (b, aPrime)`, plus `2π` if that value is negative. -/
theorem hPrime_in_range (lab1 lab2 : LAB) :
    (0 ≤ hPrime1 lab1 lab2 ∧ hPrime1 lab1 lab2 < 2 * Real.pi) ∧
      (0 ≤ hPrime2 lab1 lab2 ∧ hPrime2 lab1 lab2 < 2 * Real.pi) ∧
      (lab1.b = 0 ∧ a1Prime lab1 lab2 = 0 → hPrime1 lab1 lab2 = 0) ∧
      (lab2.b = 0 ∧ a2Prime lab1 lab2 = 0 → hPrime2 lab1 lab2 = 0) ∧
      (¬ (lab1.b = 0 ∧ a1Prime lab1 lab2 = 0) →
        hPrime1 lab1 lab2 =
          if atan2 lab1.b (a1Prime lab1 lab2) < 0
            then atan2 lab1.b (a1Prime lab1 lab2) + 2 * Real.pi
            else atan2 lab1.b (a1Prime lab1 lab2)) ∧
      (¬ (lab2.b = 0 ∧ a2Prime lab1 lab2 = 0) →
        hPrime2 lab1 lab2 =
          if atan2 lab2.b (a2Prime lab1 lab2) < 0
            then atan2 lab2.b (a2Prime lab1 lab2) + 2 * Real.pi
            else atan2 lab2.b (a2Prime lab1 lab2)) :=
  ⟨hPrime_range _ _, hPrime_range _ _, (hPrime_eq _ _).1, (hPrime_eq _ _).1,
    (hPrime_eq _ _).2, (hPrime_eq _ _).2⟩

/-! ## Claim C13 -/

theorem R_T_abs_lt (lab1 lab2 : LAB) : |R_T lab1 lab2| < 2 := by
  obtain ⟨h0, h1⟩ := R_C_bounds lab1 lab2
  have hs := Real.abs_sin_le_one (2 * deltaTheta lab1 lab2)
  unfold R_T
  rw [abs_mul, abs_neg, abs_of_nonneg h0]
  calc |Real.sin (2 * deltaTheta lab1 lab2)| * R_C lab1 lab2
      ≤ 1 * R_C lab1 lab2 := mul_le_mul_of_nonneg_right hs h0
    _ < 2 := by linarith

theorem radicand_eq (lab1 lab2 : LAB) :
    radicand lab1 lab2 =
      (deltaLPrime lab1 lab2 / S_L lab1 lab2) ^ 2 + (deltaCPrime lab1 lab2 / S_C lab1 lab2) ^ 2 +
        (deltaHPrime lab1 lab2 / S_H lab1 lab2) ^ 2 +
        R_T lab1 lab2 * (deltaCPrime lab1 lab2 / S_C lab1 lab2) *
          (deltaHPrime lab1 lab2 / S_H lab1 lab2) := by
  unfold radicand k_L k_C k_H
  simp only [one_mul]

/-- C13 (radicand is non-negative): `0 ≤ R_C < 2`, hence `|R_T| < 2`, hence the argument of the
final square root, `(dL/S_L)² + (dC/S_C)² + (dH/S_H)² + R_T (dC/S_C) (dH/S_H)`, is `≥ 0`; the
result is a genuine square root: its square is that argument. -/
theorem radicand_is_nonneg (lab1 lab2 : LAB) :
    (0 ≤ R_C lab1 lab2 ∧ R_C lab1 lab2 < 2) ∧ |R_T lab1 lab2| < 2 ∧
      0 ≤ (deltaLPrime lab1 lab2 / S_L lab1 lab2) ^ 2 +
          (deltaCPrime lab1 lab2 / S_C lab1 lab2) ^ 2 +
          (deltaHPrime lab1 lab2 / S_H lab1 lab2) ^ 2 +
          R_T lab1 lab2 * (deltaCPrime lab1 lab2 / S_C lab1 lab2) *
            (deltaHPrime lab1 lab2 / S_H lab1 lab2) ∧
      CIEDE2000 lab1 lab2 ^ 2 =
        (deltaLPrime lab1 lab2 / S_L lab1 lab2) ^ 2 +
          (deltaCPrime lab1 lab2 / S_C lab1 lab2) ^ 2 +
          (deltaHPrime lab1 lab2 / S_H lab1 lab2) ^ 2 +
          R_T lab1 lab2 * (deltaCPrime lab1 lab2 / S_C lab1 lab2) *
            (deltaHPrime lab1 lab2 / S_H lab1 lab2) := by
  have h := radicand_nonneg lab1 lab2
  refine ⟨R_C_bounds lab1 lab2, R_T_abs_lt lab1 lab2, ?_, ?_⟩
  · rw [← radicand_eq]
    exact h
  · rw [← radicand_eq]
    unfold CIEDE2000
    exact Real.sq_sqrt h

/-! ## Claim C14 -/

theorem T_ge (lab1 lab2 : LAB) : 0.07 ≤ T lab1 lab2 := by
  have h1 := Real.cos_le_one (barhPrime lab1 lab2 - deg2Rad 30)
  have h2 := Real.neg_one_le_cos (2 * barhPrime lab1 lab2)
  have h3 := Real.neg_one_le_cos ((3 * barhPrime lab1 lab2) + deg2Rad 6)
  have h4 := Real.cos_le_one ((4 * barhPrime lab1 lab2) - deg2Rad 63)
  unfold T
  norm_num
  linarith

theorem S_H_ge_one (lab1 lab2 : LAB) : 1 ≤ S_H lab1 lab2 := by
  have hT := T_ge lab1 lab2
  have hC := barCPrime_nonneg lab1 lab2
  have hT0 : 0 ≤ T lab1 lab2 := le_trans (by norm_num) hT
  have : 0 ≤ 0.015 * barCPrime lab1 lab2 * T lab1 lab2 :=
    mul_nonneg (mul_nonneg (by norm_num) hC) hT0
  unfold S_H
  linarith

theorem deg2Rad_pos {d : ℝ} (hd : 0 < d) : 0 < deg2Rad d := by
  unfold deg2Rad
  exact mul_pos hd (div_pos PI_pos (by norm_num))

/-- C14 (divisions are guarded): `S_L ≥ 1`, `S_C ≥ 1` and `S_H ≥ 1` (the last because
`T ≥ 0.07` and `barCPrime ≥ 0`), the denominators `barC^7 + 25^7` and `barCPrime^7 + 25^7` are
strictly positive, and so are the remaining divisors `sqrt (20 + (barLPrime - 50)²)`,
`deg2Rad 25`, `k_L S_L`, `k_C S_C` and `k_H S_H`: no division in `CIEDE2000` is by zero. -/
theorem divisions_guarded (lab1 lab2 : LAB) :
    1 ≤ S_L lab1 lab2 ∧ 1 ≤ S_C lab1 lab2 ∧ 1 ≤ S_H lab1 lab2 ∧
      0.07 ≤ T lab1 lab2 ∧ 0 ≤ barCPrime lab1 lab2 ∧
      0 < barC lab1 lab2 ^ 7 + pow25To7 ∧ 0 < barCPrime lab1 lab2 ^ 7 + pow25To7 ∧
      0 < Real.sqrt (20 + (barLPrime lab1 lab2 - 50) ^ 2) ∧ 0 < deg2Rad 25 ∧
      0 < k_L * S_L lab1 lab2 ∧ 0 < k_C * S_C lab1 lab2 ∧ 0 < k_H * S_H lab1 lab2 := by
  have hk := pow25To7_pos
  have hL := S_L_ge_one lab1 lab2
  have hC := S_C_ge_one lab1 lab2
  have hH := S_H_ge_one lab1 lab2
  have h7 : 0 ≤ barC lab1 lab2 ^ 7 := pow_nonneg (barC_nonneg lab1 lab2) 7
  have h7p : 0 ≤ barCPrime lab1 lab2 ^ 7 := pow_nonneg (barCPrime_nonneg lab1 lab2) 7
  refine ⟨hL, hC, hH, T_ge lab1 lab2, barCPrime_nonneg lab1 lab2, by linarith, by linarith,
    ?_, deg2Rad_pos (by norm_num), ?_, ?_, ?_⟩
  · apply Real.sqrt_pos.mpr
    have := sq_nonneg (barLPrime lab1 lab2 - 50)
    linarith
  · unfold k_L
    linarith
  · unfold k_C
    linarith
  · unfold k_H
    linarith

/-! ## Claim C16 -/

/-- C16 (index in range): for every `n ≥ 1`, whatever the distances are (also when none is
below the `DBL_MAX` sentinel and `lowest_row` keeps its initial value), the index `r` returned
by `deltaE_min` satisfies `0 ≤ r < n`. -/
theorem deltaE_min_in_range (matrix_in : ℕ → ℝ) (n : ℤ) (pixel : ℕ → ℝ) (hn : 1 ≤ n) :
    (0 : ℤ) ≤ (deltaE_min matrix_in n pixel : ℤ) ∧ (deltaE_min matrix_in n pixel : ℤ) < n := by
  have hk : 0 < n.toNat := by omega
  have h := deltaE_min_state_lt matrix_in pixel n.toNat hk
  have h2 : deltaE_min matrix_in n pixel < n.toNat := h
  constructor <;> omega

/-- Witness for C16 on an input where no distance is below the sentinel: query
`{-DBL_MAX, 0, 0}` and candidates `[{DBL_MAX, 1, 0}, {DBL_MAX, 0, 0}]`. -/
theorem deltaE_min_in_range_witness :
    (1 : ℤ) ≤ 2 ∧
      (0 : ℤ) ≤ (deltaE_min (ofList [DBL_MAX, 1, 0, DBL_MAX, 0, 0]) 2
        (ofList [-DBL_MAX, 0, 0]) : ℤ) ∧
      (deltaE_min (ofList [DBL_MAX, 1, 0, DBL_MAX, 0, 0]) 2 (ofList [-DBL_MAX, 0, 0]) : ℤ) < 2 :=
  ⟨by norm_num, deltaE_min_in_range _ 2 _ (by norm_num)⟩

/-! ## Claim C17 -/

/-- C17 (angle round trip): `deg2Rad x = x * (PI / 180)` and `rad2Deg x = (180 / PI) * x` are
mutually inverse over the reals: `rad2Deg (deg2Rad x) = x` and `deg2Rad (rad2Deg x) = x`. Only
`PI ≠ 0` is used, so the same holds with the decimal constant `3.14159265358979323846` of the
header in place of `PI`. -/
theorem deg2Rad_rad2Deg_round_trip (x : ℝ) :
    rad2Deg (deg2Rad x) = x ∧ deg2Rad (rad2Deg x) = x ∧
      deg2Rad x = x * (PI / 180) ∧ rad2Deg x = (180 / PI) * x ∧
      (180 / 3.14159265358979323846) * (x * (3.14159265358979323846 / 180)) = x ∧
      ((180 / 3.14159265358979323846) * x) * (3.14159265358979323846 / 180) = x := by
  have hpi : PI ≠ 0 := PI_pos.ne.symm
  refine ⟨?_, ?_, rfl, rfl, ?_, ?_⟩
  · unfold rad2Deg deg2Rad
    field_simp
    ring
  · unfold rad2Deg deg2Rad
    field_simp
  · norm_num
    ring
  · norm_num
    ring


/-! ## Claim C12 -/

/-- The three mean-hue branches against the wrapped hue difference, for hue angles
`h1, h2 ∈ [0, 2π)`: `m` is the mean hue and `w` the wrapped difference. -/
theorem mean_hue_arc (h1 h2 : ℝ) (h1l : 0 ≤ h1) (h1u : h1 < 2 * Real.pi) (h2l : 0 ≤ h2)
    (h2u : h2 < 2 * Real.pi) :
    let d := h2 - h1
    let w := if d < -Real.pi then d + 2 * Real.pi else if d > Real.pi then d - 2 * Real.pi else d
    let m := if |h1 - h2| ≤ Real.pi then (h1 + h2) / 2
      else if h1 + h2 < 2 * Real.pi then (h1 + h2 + 2 * Real.pi) / 2
      else (h1 + h2 - 2 * Real.pi) / 2
    (0 ≤ m ∧ m < 2 * Real.pi) ∧ (∃ k : ℤ, m = h1 + w / 2 + k * (2 * Real.pi)) ∧
      (∃ k : ℤ, m = h2 - w / 2 + k * (2 * Real.pi)) ∧ |w / 2| ≤ Real.pi / 2 := by
  have hpi := Real.pi_pos
  intro d w m
  by_cases habs : |h1 - h2| ≤ Real.pi
  · obtain ⟨ha, hb⟩ := abs_le.mp habs
    have c1 : ¬ d < -Real.pi := by
      show ¬ h2 - h1 < -Real.pi
      linarith
    have c2 : ¬ d > Real.pi := by
      show ¬ h2 - h1 > Real.pi
      linarith
    have hw : w = h2 - h1 := by
      show (if d < -Real.pi then d + 2 * Real.pi
        else if d > Real.pi then d - 2 * Real.pi else d) = h2 - h1
      rw [if_neg c1, if_neg c2]
    have hm : m = (h1 + h2) / 2 := by
      show (if |h1 - h2| ≤ Real.pi then (h1 + h2) / 2
        else if h1 + h2 < 2 * Real.pi then (h1 + h2 + 2 * Real.pi) / 2
        else (h1 + h2 - 2 * Real.pi) / 2) = (h1 + h2) / 2
      rw [if_pos habs]
    rw [hw, hm]
    refine ⟨⟨by linarith, by linarith⟩, ⟨0, by push_cast; ring⟩, ⟨0, by push_cast; ring⟩, ?_⟩
    rw [abs_le]
    constructor <;> linarith
  · have hgt : Real.pi < |h1 - h2| := not_le.mp habs
    by_cases hs : h1 + h2 < 2 * Real.pi
    · have hm : m = (h1 + h2 + 2 * Real.pi) / 2 := by
        show (if |h1 - h2| ≤ Real.pi then (h1 + h2) / 2
          else if h1 + h2 < 2 * Real.pi then (h1 + h2 + 2 * Real.pi) / 2
          else (h1 + h2 - 2 * Real.pi) / 2) = (h1 + h2 + 2 * Real.pi) / 2
        rw [if_neg habs, if_pos hs]
      rcases lt_abs.mp hgt with hc | hc
      · -- h1 - h2 > π
        have c1 : d < -Real.pi := by
          show h2 - h1 < -Real.pi
          linarith
        have hw : w = h2 - h1 + 2 * Real.pi := by
          show (if d < -Real.pi then d + 2 * Real.pi
            else if d > Real.pi then d - 2 * Real.pi else d) = h2 - h1 + 2 * Real.pi
          rw [if_pos c1]
        rw [hw, hm]
        refine ⟨⟨by linarith, by linarith⟩, ⟨0, by push_cast; ring⟩, ⟨1, by push_cast; ring⟩, ?_⟩
        rw [abs_le]
        constructor <;> linarith
      · -- h2 - h1 > π
        have c1 : ¬ d < -Real.pi := by
          show ¬ h2 - h1 < -Real.pi
          linarith
        have c2 : d > Real.pi := by
          show h2 - h1 > Real.pi
          linarith
        have hw : w = h2 - h1 - 2 * Real.pi := by
          show (if d < -Real.pi then d + 2 * Real.pi
            else if d > Real.pi then d - 2 * Real.pi else d) = h2 - h1 - 2 * Real.pi
          rw [if_neg c1, if_pos c2]
        rw [hw, hm]
        refine ⟨⟨by linarith, by linarith⟩, ⟨1, by push_cast; ring⟩, ⟨0, by push_cast; ring⟩, ?_⟩
        rw [abs_le]
        constructor <;> linarith
    · have hm : m = (h1 + h2 - 2 * Real.pi) / 2 := by
        show (if |h1 - h2| ≤ Real.pi then (h1 + h2) / 2
          else if h1 + h2 < 2 * Real.pi then (h1 + h2 + 2 * Real.pi) / 2
          else (h1 + h2 - 2 * Real.pi) / 2) = (h1 + h2 - 2 * Real.pi) / 2
        rw [if_neg habs, if_neg hs]
      rcases lt_abs.mp hgt with hc | hc
      · have c1 : d < -Real.pi := by
          show h2 - h1 < -Real.pi
          linarith
        have hw : w = h2 - h1 + 2 * Real.pi := by
          show (if d < -Real.pi then d + 2 * Real.pi
            else if d > Real.pi then d - 2 * Real.pi else d) = h2 - h1 + 2 * Real.pi
          rw [if_pos c1]
        rw [hw, hm]
        refine ⟨⟨by linarith, by linarith⟩, ⟨-1, by push_cast; ring⟩, ⟨0, by push_cast; ring⟩,
          ?_⟩
        rw [abs_le]
        constructor <;> linarith
      · have c1 : ¬ d < -Real.pi := by
          show ¬ h2 - h1 < -Real.pi
          linarith
        have c2 : d > Real.pi := by
          show h2 - h1 > Real.pi
          linarith
        have hw : w = h2 - h1 - 2 * Real.pi := by
          show (if d < -Real.pi then d + 2 * Real.pi
            else if d > Real.pi then d - 2 * Real.pi else d) = h2 - h1 - 2 * Real.pi
          rw [if_neg c1, if_pos c2]
        rw [hw, hm]
        refine ⟨⟨by linarith, by linarith⟩, ⟨0, by push_cast; ring⟩, ⟨-1, by push_cast; ring⟩,
          ?_⟩
        rw [abs_le]
        constructor <;> linarith

theorem deltahPrime_of_ne (lab1 lab2 : LAB) (hP : CPrime1 lab1 lab2 * CPrime2 lab1 lab2 ≠ 0) :
    deltahPrime lab1 lab2 =
      if hPrime2 lab1 lab2 - hPrime1 lab1 lab2 < -Real.pi
        then hPrime2 lab1 lab2 - hPrime1 lab1 lab2 + 2 * Real.pi
      else if hPrime2 lab1 lab2 - hPrime1 lab1 lab2 > Real.pi
        then hPrime2 lab1 lab2 - hPrime1 lab1 lab2 - 2 * Real.pi
      else hPrime2 lab1 lab2 - hPrime1 lab1 lab2 := by
  unfold deltahPrime CPrimeProduct
  rw [if_neg hP, deg180InRad_eq, deg360InRad_eq]

theorem barhPrime_of_ne (lab1 lab2 : LAB) (hP : CPrime1 lab1 lab2 * CPrime2 lab1 lab2 ≠ 0) :
    barhPrime lab1 lab2 =
      if |hPrime1 lab1 lab2 - hPrime2 lab1 lab2| ≤ Real.pi
        then (hPrime1 lab1 lab2 + hPrime2 lab1 lab2) / 2
      else if hPrime1 lab1 lab2 + hPrime2 lab1 lab2 < 2 * Real.pi
        then (hPrime1 lab1 lab2 + hPrime2 lab1 lab2 + 2 * Real.pi) / 2
      else (hPrime1 lab1 lab2 + hPrime2 lab1 lab2 - 2 * Real.pi) / 2 := by
  unfold barhPrime hPrimeSum
  rw [if_neg hP, deg180InRad_eq, deg360InRad_eq]

/-- C12 (mean hue on the shorter arc): when both adjusted chromas are non-zero, `barhPrime`
lies in `[0, 2π)` and is congruent modulo `2π` to `hPrime1 + deltahPrime / 2` and to
`hPrime2 - deltahPrime / 2`, where `|deltahPrime / 2| ≤ π/2`: it is the midpoint of the
shorter arc between the two hue angles, within `π/2` of both around the circle. -/
theorem barhPrime_shorter_arc (lab1 lab2 : LAB)
    (hP : CPrime1 lab1 lab2 * CPrime2 lab1 lab2 ≠ 0) :
    (0 ≤ barhPrime lab1 lab2 ∧ barhPrime lab1 lab2 < 2 * Real.pi) ∧
      (∃ k : ℤ, barhPrime lab1 lab2 =
        hPrime1 lab1 lab2 + deltahPrime lab1 lab2 / 2 + k * (2 * Real.pi)) ∧
      (∃ k : ℤ, barhPrime lab1 lab2 =
        hPrime2 lab1 lab2 - deltahPrime lab1 lab2 / 2 + k * (2 * Real.pi)) ∧
      |deltahPrime lab1 lab2 / 2| ≤ Real.pi / 2 := by
  obtain ⟨h1l, h1u⟩ := hPrime_range lab1.b (a1Prime lab1 lab2)
  obtain ⟨h2l, h2u⟩ := hPrime_range lab2.b (a2Prime lab1 lab2)
  rw [deltahPrime_of_ne lab1 lab2 hP, barhPrime_of_ne lab1 lab2 hP]
  exact mean_hue_arc (hPrime1 lab1 lab2) (hPrime2 lab1 lab2) h1l h1u h2l h2u

/-- Witness for C12 at the reference pair `{50, 2.6772, -79.7751}`, `{50, 0, -82.7485}`. -/
theorem barhPrime_shorter_arc_witness :
    CPrime1 refLab1 refLab2 * CPrime2 refLab1 refLab2 ≠ 0 ∧
      (0 ≤ barhPrime refLab1 refLab2 ∧ barhPrime refLab1 refLab2 < 2 * Real.pi) ∧
      (∃ k : ℤ, barhPrime refLab1 refLab2 =
        hPrime1 refLab1 refLab2 + deltahPrime refLab1 refLab2 / 2 + k * (2 * Real.pi)) ∧
      (∃ k : ℤ, barhPrime refLab1 refLab2 =
        hPrime2 refLab1 refLab2 - deltahPrime refLab1 refLab2 / 2 + k * (2 * Real.pi)) ∧
      |deltahPrime refLab1 refLab2 / 2| ≤ Real.pi / 2 :=
  ⟨ref_CPrimeProduct_pos.ne.symm,
    barhPrime_shorter_arc refLab1 refLab2 ref_CPrimeProduct_pos.ne.symm⟩


/-! ## Claim C15 -/

/-- A quadratic form `A² + B² + C² + r B C` with `|r| < 2` vanishes only at the origin. -/
theorem quad_form_eq_zero (A B C r : ℝ) (hr : |r| < 2)
    (h : A ^ 2 + B ^ 2 + C ^ 2 + r * B * C = 0) : A = 0 ∧ B = 0 ∧ C = 0 := by
  obtain ⟨h1, h2⟩ := abs_lt.mp hr
  have hp : 0 < 2 + r := by linarith
  have hm : 0 < 2 - r := by linarith
  have hsplit : A ^ 2 + B ^ 2 + C ^ 2 + r * B * C =
      A ^ 2 + (2 + r) / 4 * (B + C) ^ 2 + (2 - r) / 4 * (B - C) ^ 2 := by ring
  rw [hsplit] at h
  have t1 : 0 ≤ A ^ 2 := sq_nonneg A
  have t2 : 0 ≤ (2 + r) / 4 * (B + C) ^ 2 := mul_nonneg (by linarith) (sq_nonneg _)
  have t3 : 0 ≤ (2 - r) / 4 * (B - C) ^ 2 := mul_nonneg (by linarith) (sq_nonneg _)
  have eA : A ^ 2 = 0 := by linarith
  have e2 : (2 + r) / 4 * (B + C) ^ 2 = 0 := by linarith
  have e3 : (2 - r) / 4 * (B - C) ^ 2 = 0 := by linarith
  have fA : A = 0 := (pow_eq_zero_iff two_ne_zero).mp eA
  have f2 : B + C = 0 := by
    rcases mul_eq_zero.mp e2 with h0 | h0
    · linarith
    · exact (pow_eq_zero_iff two_ne_zero).mp h0
  have f3 : B - C = 0 := by
    rcases mul_eq_zero.mp e3 with h0 | h0
    · linarith
    · exact (pow_eq_zero_iff two_ne_zero).mp h0
  exact ⟨fA, by linarith, by linarith⟩

/-- A vanishing adjusted chroma forces `a = b = 0`. -/
theorem achromatic_of_CPrime_zero (g a b : ℝ) (hg : 0 < 1 + g)
    (h : Real.sqrt (((1 + g) * a) * ((1 + g) * a) + b * b) = 0) : a = 0 ∧ b = 0 := by
  have hn : 0 ≤ ((1 + g) * a) * ((1 + g) * a) + b * b :=
    add_nonneg (mul_self_nonneg _) (mul_self_nonneg _)
  have h0 := (Real.sqrt_eq_zero hn).mp h
  have ha : ((1 + g) * a) * ((1 + g) * a) = 0 := by
    linarith [mul_self_nonneg ((1 + g) * a), mul_self_nonneg b]
  have hb : b * b = 0 := by
    linarith [mul_self_nonneg ((1 + g) * a), mul_self_nonneg b]
  have ha2 : (1 + g) * a = 0 := mul_self_eq_zero.mp ha
  refine ⟨?_, mul_self_eq_zero.mp hb⟩
  rcases mul_eq_zero.mp ha2 with h1 | h1
  · linarith
  · exact h1

/-- Equal hue angles of two chromatic colours are equal arguments. -/
theorem arg_eq_of_hPrime_eq (b1 a1 b2 a2 : ℝ) (hn1 : ¬ (b1 = 0 ∧ a1 = 0))
    (hn2 : ¬ (b2 = 0 ∧ a2 = 0)) (h : hPrime b1 a1 = hPrime b2 a2) :
    Complex.arg ⟨a1, b1⟩ = Complex.arg ⟨a2, b2⟩ := by
  have hpi := Real.pi_pos
  have l1 := Complex.neg_pi_lt_arg ⟨a1, b1⟩
  have u1 := Complex.arg_le_pi ⟨a1, b1⟩
  have l2 := Complex.neg_pi_lt_arg ⟨a2, b2⟩
  have u2 := Complex.arg_le_pi ⟨a2, b2⟩
  unfold hPrime atan2 at h
  rw [if_neg hn1, if_neg hn2, deg360InRad_eq] at h
  by_cases c1 : Complex.arg ⟨a1, b1⟩ < 0
  · by_cases c2 : Complex.arg ⟨a2, b2⟩ < 0
    · simp only [c1, c2, if_true] at h
      linarith
    · simp only [c1, c2, if_true, if_false] at h
      linarith
  · by_cases c2 : Complex.arg ⟨a2, b2⟩ < 0
    · simp only [c1, c2, if_true, if_false] at h
      linarith
    · simp only [c1, c2, if_false] at h
      exact h

theorem CIEDE2000_eq_zero_imp (c1 c2 : LAB) (h : CIEDE2000 c1 c2 = 0) : c1 = c2 := by
  have hpi := Real.pi_pos
  have hrad : radicand c1 c2 = 0 := by
    unfold CIEDE2000 at h
    exact (Real.sqrt_eq_zero (radicand_nonneg c1 c2)).mp h
  rw [radicand_eq] at hrad
  obtain ⟨hA, hB, hC⟩ := quad_form_eq_zero _ _ _ _ (R_T_abs_lt c1 c2) hrad
  have hSL : S_L c1 c2 ≠ 0 := (lt_of_lt_of_le one_pos (S_L_ge_one c1 c2)).ne.symm
  have hSC : S_C c1 c2 ≠ 0 := (lt_of_lt_of_le one_pos (S_C_ge_one c1 c2)).ne.symm
  have hSH : S_H c1 c2 ≠ 0 := (lt_of_lt_of_le one_pos (S_H_ge_one c1 c2)).ne.symm
  have hdL : deltaLPrime c1 c2 = 0 := by
    rcases div_eq_zero_iff.mp hA with h0 | h0
    · exact h0
    · exact absurd h0 hSL
  have hdC : deltaCPrime c1 c2 = 0 := by
    rcases div_eq_zero_iff.mp hB with h0 | h0
    · exact h0
    · exact absurd h0 hSC
  have hdH : deltaHPrime c1 c2 = 0 := by
    rcases div_eq_zero_iff.mp hC with h0 | h0
    · exact h0
    · exact absurd h0 hSH
  have hl : c1.l = c2.l := by
    unfold deltaLPrime at hdL
    linarith
  have hCeq : CPrime1 c1 c2 = CPrime2 c1 c2 := by
    unfold deltaCPrime at hdC
    linarith
  have hg : 0 < 1 + G c1 c2 := by linarith [G_pos c1 c2]
  have hab : c1.a = c2.a ∧ c1.b = c2.b := by
    by_cases hP : CPrime1 c1 c2 * CPrime2 c1 c2 = 0
    · -- both colours are achromatic
      have h10 : CPrime1 c1 c2 = 0 := by
        rcases mul_eq_zero.mp hP with h0 | h0
        · exact h0
        · rw [hCeq]
          exact h0
      have h20 : CPrime2 c1 c2 = 0 := by
        rw [← hCeq]
        exact h10
      obtain ⟨a1, b1⟩ := achromatic_of_CPrime_zero (G c1 c2) c1.a c1.b hg h10
      obtain ⟨a2, b2⟩ := achromatic_of_CPrime_zero (G c1 c2) c2.a c2.b hg h20
      exact ⟨by rw [a1, a2], by rw [b1, b2]⟩
    · -- both colours are chromatic: the hue difference vanishes
      have hsq : Real.sqrt (CPrimeProduct c1 c2) ≠ 0 := by
        intro h0
        have hnn : 0 ≤ CPrimeProduct c1 c2 :=
          mul_nonneg (CPrime1_nonneg c1 c2) (CPrime2_nonneg c1 c2)
        exact hP ((Real.sqrt_eq_zero hnn).mp h0)
      have hsin : Real.sin (deltahPrime c1 c2 / 2) = 0 := by
        unfold deltaHPrime at hdH
        rcases mul_eq_zero.mp hdH with h0 | h0
        · rcases mul_eq_zero.mp h0 with h00 | h00
          · norm_num at h00
          · exact absurd h00 hsq
        · exact h0
      obtain ⟨rl, ru, _⟩ := deltahPrime_range c1 c2 hP
      have hd0 : deltahPrime c1 c2 = 0 := by
        have := (Real.sin_eq_zero_iff_of_lt_of_lt (by linarith) (by linarith)).mp hsin
        linarith
      obtain ⟨h1l, h1u⟩ := hPrime_range c1.b (a1Prime c1 c2)
      obtain ⟨h2l, h2u⟩ := hPrime_range c2.b (a2Prime c1 c2)
      have hh : hPrime c1.b (a1Prime c1 c2) = hPrime c2.b (a2Prime c1 c2) := by
        have hw := deltahPrime_of_ne c1 c2 hP
        rw [hd0] at hw
        unfold hPrime1 hPrime2 at hw
        by_cases c1' : hPrime c2.b (a2Prime c1 c2) - hPrime c1.b (a1Prime c1 c2) < -Real.pi
        · rw [if_pos c1'] at hw
          linarith
        · rw [if_neg c1'] at hw
          by_cases c2' : hPrime c2.b (a2Prime c1 c2) - hPrime c1.b (a1Prime c1 c2) > Real.pi
          · rw [if_pos c2'] at hw
            linarith
          · rw [if_neg c2'] at hw
            linarith
      have hC1 : CPrime1 c1 c2 ≠ 0 := left_ne_zero_of_mul hP
      have hC2 : CPrime2 c1 c2 ≠ 0 := right_ne_zero_of_mul hP
      have hn1 : ¬ (c1.b = 0 ∧ a1Prime c1 c2 = 0) := by
        intro hz
        apply hC1
        unfold CPrime1
        rw [hz.1, hz.2]
        simp
      have hn2 : ¬ (c2.b = 0 ∧ a2Prime c1 c2 = 0) := by
        intro hz
        apply hC2
        unfold CPrime2
        rw [hz.1, hz.2]
        simp
      have harg := arg_eq_of_hPrime_eq _ _ _ _ hn1 hn2 hh
      have habs : Complex.abs ⟨a1Prime c1 c2, c1.b⟩ = Complex.abs ⟨a2Prime c1 c2, c2.b⟩ := by
        rw [Complex.abs_apply, Complex.abs_apply, Complex.normSq_apply, Complex.normSq_apply]
        exact hCeq
      have hz := Complex.ext_abs_arg habs harg
      have hre : a1Prime c1 c2 = a2Prime c1 c2 := congrArg Complex.re hz
      have him : c1.b = c2.b := congrArg Complex.im hz
      refine ⟨?_, him⟩
      unfold a1Prime a2Prime at hre
      exact mul_left_cancel₀ hg.ne.symm hre
  obtain ⟨l1, a1, b1⟩ := c1
  obtain ⟨l2, a2, b2⟩ := c2
  simp only at hl hab
  rw [hl, hab.1, hab.2]

/-- C15 (definiteness), as it holds: in exact real arithmetic `CIEDE2000 c1 c2 = 0` only if
`c1 = c2` (same `l`, `a` and `b`), and, by identity, if. -/
theorem CIEDE2000_definite (c1 c2 : LAB) : CIEDE2000 c1 c2 = 0 ↔ c1 = c2 := by
  constructor
  · exact CIEDE2000_eq_zero_imp c1 c2
  · intro h
    rw [h]
    exact CIEDE2000_self c2

/-! ### Underflow: a distance `0` between distinct colours -/

theorem roundsLikeDouble_zero {fl : ℝ → ℝ} (h : RoundsLikeDouble fl) : fl 0 = 0 :=
  h.1 0 (by simp)

theorem roundsLikeDouble_one_add_G_le {fl : ℝ → ℝ} (h : RoundsLikeDouble fl) :
    |fl (1 + fl (0.5 * fl 1))| ≤ 6 := by
  have h1 : |fl 1| ≤ 2 := by
    have := h.2 1
    simpa using this
  have h2 : |fl (0.5 * fl 1)| ≤ 2 := by
    have := h.2 (0.5 * fl 1)
    rw [abs_mul] at this
    have h05 : |(0.5 : ℝ)| = 0.5 := by norm_num
    rw [h05] at this
    linarith
  have h3 : |1 + fl (0.5 * fl 1)| ≤ 3 := by
    refine le_trans (abs_add _ _) ?_
    rw [abs_one]
    linarith
  have := h.2 (1 + fl (0.5 * fl 1))
  linarith

theorem CIEDE2000Fl_underflow (fl : ℝ → ℝ) (h : RoundsLikeDouble fl) :
    CIEDE2000Fl fl ⟨0, 0, 0⟩ ⟨0, 1e-200, 0⟩ = 0 := by
  have h0 := roundsLikeDouble_zero h
  have hsq : fl (1e-200 * 1e-200) = 0 := by
    apply h.1
    rw [abs_of_nonneg (by norm_num)]
    norm_num
  have ha : |fl (fl (1 + fl (0.5 * fl 1)) * 1e-200)| ≤ 1.2e-199 := by
    have h6 := roundsLikeDouble_one_add_G_le h
    have := h.2 (fl (1 + fl (0.5 * fl 1)) * 1e-200)
    rw [abs_mul] at this
    have he : |(1e-200 : ℝ)| = 1e-200 := abs_of_nonneg (by norm_num)
    rw [he] at this
    have hb : |fl (1 + fl (0.5 * fl 1))| * 1e-200 ≤ 6 * 1e-200 :=
      mul_le_mul_of_nonneg_right h6 (by norm_num)
    have hn : (2 : ℝ) * (6 * 1e-200) = 1.2e-199 := by norm_num
    linarith
  have ha2 : fl (fl (fl (1 + fl (0.5 * fl 1)) * 1e-200) *
      fl (fl (1 + fl (0.5 * fl 1)) * 1e-200)) = 0 := by
    apply h.1
    rw [abs_mul]
    have hnn := abs_nonneg (fl (fl (1 + fl (0.5 * fl 1)) * 1e-200))
    have hb : |fl (fl (1 + fl (0.5 * fl 1)) * 1e-200)| *
        |fl (fl (1 + fl (0.5 * fl 1)) * 1e-200)| ≤ 1.2e-199 * 1.2e-199 :=
      mul_le_mul ha ha hnn (by norm_num)
    have hn : (1.2e-199 : ℝ) * 1.2e-199 ≤ (2 : ℝ)⁻¹ ^ 1075 := by norm_num
    linarith
  simp [CIEDE2000Fl, h0, hsq, ha2]

theorem flush_roundsLikeDouble : RoundsLikeDouble flush := by
  constructor
  · intro x hx
    unfold flush
    rw [if_pos hx]
  · intro x
    unfold flush
    by_cases hx : |x| ≤ (2 : ℝ)⁻¹ ^ 1075
    · rw [if_pos hx, abs_zero]
      positivity
    · rw [if_neg hx]
      linarith [abs_nonneg x]

/-- Counterexample to C15: the colours `{0, 0, 0}` and `{0, 1e-200, 0}` are distinct, yet in
`double` arithmetic their distance is exactly `0`: the squares of `a` and of `a2Prime`
underflow, so both chromas, `deltaCPrime` and `deltaHPrime` vanish. This holds for the rounding
`flush` and for every rounding function with the two properties `RoundsLikeDouble`. -/
theorem CIEDE2000_zero_of_distinct :
    (⟨0, 0, 0⟩ : LAB) ≠ ⟨0, 1e-200, 0⟩ ∧
      CIEDE2000Fl flush ⟨0, 0, 0⟩ ⟨0, 1e-200, 0⟩ = 0 ∧
      ∀ fl : ℝ → ℝ, RoundsLikeDouble fl → CIEDE2000Fl fl ⟨0, 0, 0⟩ ⟨0, 1e-200, 0⟩ = 0 := by
  refine ⟨?_, CIEDE2000Fl_underflow flush flush_roundsLikeDouble, CIEDE2000Fl_underflow⟩
  intro h
  have ha := congrArg LAB.a h
  norm_num at ha

end CIEDE
